import Mathlib

/-
Verification of the structured-extraction subsystem of neckar_wave_scripts2:
a shallow embedding of src/src/order_prompt_config.py,
src/src/structured_extraction.py and src/api/services/image_extractor.py,
together with theorems settling the specification claims about the
schema/validation model, the LLM repair loop and the image caller adapter.

Python strings are modelled as Lean `String` (lists of characters); Python
dicts coming from JSON are modelled as association lists with unique keys
(the JSON parser collapses duplicate keys, last value wins, as json.loads
does).  JSON numbers are modelled as integers: the order payloads validated
here only ever carry integral quantities.
-/

namespace NW

/-! ## Python string primitives -/

/-- Characters treated as whitespace by the Python `str.strip()` calls in the
source (ASCII subset; the payloads under test contain no exotic Unicode
whitespace). -/
def isSpc (c : Char) : Bool := c = ' ' || c = '\t' || c = '\n' || c = '\r'

def lstripL (l : List Char) : List Char := l.dropWhile isSpc

def rstripL (l : List Char) : List Char := (l.reverse.dropWhile isSpc).reverse

/-- Models Python `str.strip()`. -/
def stripL (l : List Char) : List Char := rstripL (lstripL l)

/-- Models Python `str.strip()` on `String`. -/
def pyStrip (s : String) : String := ⟨stripL s.data⟩

/-- Models Python `str.lower()` (ASCII subset, which covers every synonym in
the payment-method dictionary of the source). -/
def pyLower (s : String) : String := ⟨s.data.map Char.toLower⟩

/-- Models `value.replace("Z", "+00:00")` from `OrderItem._normalize_datum`. -/
def zrepL : List Char → List Char
  | [] => []
  | c :: r => (if c = 'Z' then ['+', '0', '0', ':', '0', '0'] else [c]) ++ zrepL r

/-- Models `cleaned.replace(" ", "")` from `OrderItem._normalize_datum`. -/
def dropSpacesL (l : List Char) : List Char := l.filter (fun c => c ≠ ' ')

/-! ## JSON values -/

/-- JSON values as produced by `json.loads` (numbers restricted to integers;
see the header note). -/
inductive Json where
  | null
  | bool (b : Bool)
  | num (n : Int)
  | str (s : String)
  | arr (elems : List Json)
  | obj (fields : List (String × Json))

/-- Models Python `dict.get(k)` on an association list (`none` = key absent). -/
def dictGet (kvs : List (String × Json)) (k : String) : Option Json :=
  (kvs.find? (fun p => p.1 = k)).map (·.2)

/-- Models Python `d[k] = v`: replace in place when the key exists, append
otherwise. -/
def dictSet (kvs : List (String × Json)) (k : String) (v : Json) :
    List (String × Json) :=
  if kvs.any (fun p => p.1 = k) then
    kvs.map (fun p => if p.1 = k then (k, v) else p)
  else kvs ++ [(k, v)]

/-- Models Python truthiness (`bool(x)`) of a JSON value. -/
def jFalsy : Json → Bool
  | .null => true
  | .bool b => !b
  | .num n => n = 0
  | .str s => s.data.isEmpty
  | .arr xs => xs.isEmpty
  | .obj kvs => kvs.isEmpty

/-- Lookup of a field on a JSON value known to be an object. -/
def jGet (j : Json) (k : String) : Option Json :=
  match j with
  | .obj kvs => dictGet kvs k
  | _ => none

/-! ## JSON parser

Models `json.loads` on the payloads handled by the engine: objects, arrays,
strings with the single-character escapes, integers, booleans and null.
Fuel-driven so that every definition is a total structural recursion the
kernel can evaluate; `jsonParse` supplies fuel no smaller than the input
length, which bounds both nesting depth and element counts. -/

def jsonWs (c : Char) : Bool := c = ' ' || c = '\t' || c = '\n' || c = '\r'

def skipWs (l : List Char) : List Char := l.dropWhile jsonWs

def escChar : Char → Option Char
  | '"' => some '"'
  | '\\' => some '\\'
  | '/' => some '/'
  | 'b' => some '\x08'
  | 'f' => some '\x0c'
  | 'n' => some '\n'
  | 'r' => some '\r'
  | 't' => some '\t'
  | _ => none

/-- Parse the remainder of a JSON string literal (after the opening quote). -/
def parseStrChars : List Char → Option (List Char × List Char)
  | [] => none
  | '"' :: r => some ([], r)
  | '\\' :: e :: r => do
      let c ← escChar e
      let (cs, r2) ← parseStrChars r
      some (c :: cs, r2)
  | c :: r => do
      let (cs, r2) ← parseStrChars r
      some (c :: cs, r2)

def digitVal (c : Char) : Nat := c.toNat - 48

def takeDigits : List Char → (List Char × List Char)
  | [] => ([], [])
  | c :: r =>
    if c.isDigit then
      let (ds, rest) := takeDigits r
      (c :: ds, rest)
    else ([], c :: r)

def digitsToNat (ds : List Char) : Nat :=
  ds.foldl (fun acc c => 10 * acc + digitVal c) 0

/-- Parse a JSON integer literal (JSON forbids leading zeros; fractional and
exponent forms are floats, which do not occur in the payloads under test). -/
def parseIntLit (l : List Char) : Option (Int × List Char) :=
  let (neg, l') : Bool × List Char :=
    match l with
    | '-' :: r => (true, r)
    | _ => (false, l)
  match takeDigits l' with
  | ([], _) => none
  | (d :: ds, rest) =>
    if d = '0' && !ds.isEmpty then none
    else
      let v : Int := Int.ofNat (digitsToNat (d :: ds))
      some (if neg then -v else v, rest)

def parseListAux (pv : List Char → Option (Json × List Char)) :
    Nat → List Char → Option (List Json × List Char)
  | 0, _ => none
  | n + 1, l => do
    let (v, r) ← pv l
    match skipWs r with
    | ',' :: r2 => do
        let (vs, r3) ← parseListAux pv n r2
        some (v :: vs, r3)
    | ']' :: r2 => some ([v], r2)
    | _ => none

def parseFieldsAux (pv : List Char → Option (Json × List Char)) :
    Nat → List (String × Json) → List Char →
    Option (List (String × Json) × List Char)
  | 0, _, _ => none
  | n + 1, acc, l =>
    match skipWs l with
    | '"' :: r => do
        let (kcs, r2) ← parseStrChars r
        match skipWs r2 with
        | ':' :: r3 => do
            let (v, r4) ← pv r3
            let acc2 := dictSet acc ⟨kcs⟩ v
            match skipWs r4 with
            | ',' :: r5 => parseFieldsAux pv n acc2 r5
            | '}' :: r5 => some (acc2, r5)
            | _ => none
        | _ => none
    | _ => none

def parseJsonVal : Nat → List Char → Option (Json × List Char)
  | 0, _ => none
  | n + 1, l =>
    match skipWs l with
    | 'n' :: 'u' :: 'l' :: 'l' :: r => some (.null, r)
    | 't' :: 'r' :: 'u' :: 'e' :: r => some (.bool true, r)
    | 'f' :: 'a' :: 'l' :: 's' :: 'e' :: r => some (.bool false, r)
    | '"' :: r => do
        let (cs, r2) ← parseStrChars r
        some (.str ⟨cs⟩, r2)
    | '[' :: r =>
        (match skipWs r with
        | ']' :: r2 => some (.arr [], r2)
        | _ => do
            let (vs, r2) ← parseListAux (parseJsonVal n) n r
            some (.arr vs, r2))
    | '{' :: r =>
        (match skipWs r with
        | '}' :: r2 => some (.obj [], r2)
        | _ => do
            let (kvs, r2) ← parseFieldsAux (parseJsonVal n) n [] r
            some (.obj kvs, r2))
    | l' => do
        let (v, r) ← parseIntLit l'
        some (.num v, r)

/-- Models `json.loads` (success = the whole input is one JSON value). -/
def jsonParse (s : String) : Option Json :=
  match parseJsonVal (s.data.length + 1) s.data with
  | some (v, r) => if skipWs r = [] then some v else none
  | none => none

/-! ## Dates and times

Models the parts of Python's `datetime` used by `OrderItem._normalize_datum`:
`datetime.fromisoformat` (after the `Z` replacement), `datetime.strptime`
against the two fixed format lists of the source, and `isoformat` rendering
with microseconds zeroed. -/

structure DateTime where
  year : Nat
  month : Nat
  day : Nat
  hour : Nat
  minute : Nat
  second : Nat
  /-- UTC offset in minutes; `none` for a naive datetime. -/
  offset : Option Int
deriving DecidableEq, Repr

def isLeap (y : Nat) : Bool := y % 4 = 0 && (y % 100 ≠ 0 || y % 400 = 0)

def daysInMonth (y m : Nat) : Nat :=
  if m = 2 then (if isLeap y then 29 else 28)
  else if m = 4 || m = 6 || m = 9 || m = 11 then 30
  else 31

/-- Offset range accepted by the `timezone` constructor: strictly less than
24 hours in magnitude. -/
def offOkB : Option Int → Bool
  | none => true
  | some o => -1439 ≤ o && o ≤ 1439

def validDTb (y mo d h mi s : Nat) (off : Option Int) : Bool :=
  1 ≤ y && y ≤ 9999 && 1 ≤ mo && mo ≤ 12 && 1 ≤ d && d ≤ daysInMonth y mo &&
  h ≤ 23 && mi ≤ 59 && s ≤ 59 && offOkB off

/-- Models the range checks the `datetime`/`date`/`timezone` constructors
perform: out-of-range components raise `ValueError` in Python, which every
caller in `_normalize_datum` turns into a parse failure. -/
def mkDT (y mo d h mi s : Nat) (off : Option Int) : Option DateTime :=
  if validDTb y mo d h mi s off then some ⟨y, mo, d, h, mi, s, off⟩ else none

def parseNDigitsAux : Nat → Nat → List Char → Option (Nat × List Char)
  | 0, acc, l => some (acc, l)
  | _ + 1, _, [] => none
  | n + 1, acc, c :: r =>
    if c.isDigit then parseNDigitsAux n (10 * acc + digitVal c) r else none

/-- Parse exactly `n` decimal digits. -/
def parseNDigits (n : Nat) (l : List Char) : Option (Nat × List Char) :=
  parseNDigitsAux n 0 l

def parseIsoDateRest : List Char → Option (Nat × Nat × List Char)
  | '-' :: r => do
      let (mo, r2) ← parseNDigits 2 r
      match r2 with
      | '-' :: r3 => do
          let (d, r4) ← parseNDigits 2 r3
          some (mo, d, r4)
      | _ => none
  | l => do
      let (mo, r2) ← parseNDigits 2 l
      let (d, r3) ← parseNDigits 2 r2
      some (mo, d, r3)

/-- Consume an optional fractional-seconds part (`.` or `,` plus digits). -/
def parseFrac : List Char → Option (List Char)
  | '.' :: r =>
      (match takeDigits r with
      | ([], _) => none
      | (_ :: _, rest) => some rest)
  | ',' :: r =>
      (match takeDigits r with
      | ([], _) => none
      | (_ :: _, rest) => some rest)
  | l => some l

/-- Parse an optional UTC offset `±HH`, `±HHMM` or `±HH:MM` at end of input.
Returns the offset in minutes (`none` = naive). -/
def parseIsoOffset : List Char → Option (Option Int)
  | [] => some none
  | c :: r =>
    if c = '+' || c = '-' then
      match parseNDigits 2 r with
      | none => none
      | some (oh, r2) =>
        let mk : Nat → Option (Option Int) := fun om =>
          if oh ≤ 23 && om ≤ 59 then
            let mins : Int := Int.ofNat (60 * oh + om)
            some (some (if c = '-' then -mins else mins))
          else none
        match r2 with
        | [] => mk 0
        | ':' :: r3 =>
            (match parseNDigits 2 r3 with
            | some (om, []) => mk om
            | _ => none)
        | _ =>
            (match parseNDigits 2 r2 with
            | some (om, []) => mk om
            | _ => none)
    else none

def parseIsoTime (l : List Char) : Option (Nat × Nat × Nat × Option Int) := do
  let (h, r) ← parseNDigits 2 l
  match r with
  | ':' :: r2 => do
      let (mi, r3) ← parseNDigits 2 r2
      match r3 with
      | ':' :: r4 => do
          let (s, r5) ← parseNDigits 2 r4
          let r6 ← parseFrac r5
          let off ← parseIsoOffset r6
          some (h, mi, s, off)
      | _ => do
          let off ← parseIsoOffset r3
          some (h, mi, 0, off)
  | _ =>
    match parseNDigits 2 r with
    | some (mi, r2) =>
        (match parseNDigits 2 r2 with
        | some (s, r3) => do
            let r4 ← parseFrac r3
            let off ← parseIsoOffset r4
            some (h, mi, s, off)
        | none => do
            let off ← parseIsoOffset r2
            some (h, mi, 0, off))
    | none => do
        let off ← parseIsoOffset r
        some (h, 0, 0, off)

/-- Models `datetime.fromisoformat` on the formats relevant here: extended
(`YYYY-MM-DD`) or basic (`YYYYMMDD`) date, optionally followed by a single
separator character and a time `HH[:MM[:SS[.fff]]]` (or basic `HHMM[SS]`)
with an optional `±HH[:MM]`/`±HHMM` offset. Exotic ISO-8601 inputs such as
week dates or offsets with seconds, which never occur in the payloads under
test, are not modelled. -/
def fromIsoL (l : List Char) : Option DateTime :=
  match parseNDigits 4 l with
  | none => none
  | some (y, r) =>
    match parseIsoDateRest r with
    | none => none
    | some (mo, d, r2) =>
      match r2 with
      | [] => mkDT y mo d 0 0 0 none
      | _ :: tl =>
        match parseIsoTime tl with
        | none => none
        | some (h, mi, s, off) => mkDT y mo d h mi s off

/-! ### strptime against the fixed format lists -/

inductive Dir where
  | lit (c : Char)
  | dayD
  | monD
  | year4
  | year2
  | hourD
  | minD
  | secD

structure TM where
  year : Nat := 1900
  month : Nat := 1
  day : Nat := 1
  hour : Nat := 0
  minute : Nat := 0
  second : Nat := 0

/-- Numeric directive matching with CPython's `_strptime` regex semantics:
prefer two digits when their value lies in `[tlo, thi]`, otherwise accept a
single digit in `[olo, 9]`. -/
def parse2or1 (tlo thi olo : Nat) : List Char → Option (Nat × List Char)
  | c1 :: c2 :: rest =>
    if c1.isDigit then
      if c2.isDigit then
        let v := 10 * digitVal c1 + digitVal c2
        if tlo ≤ v && v ≤ thi then some (v, rest)
        else if olo ≤ digitVal c1 && digitVal c1 ≤ 9 then
          some (digitVal c1, c2 :: rest)
        else none
      else
        if olo ≤ digitVal c1 && digitVal c1 ≤ 9 then
          some (digitVal c1, c2 :: rest)
        else none
    else none
  | [c1] =>
    if c1.isDigit && (olo ≤ digitVal c1 && digitVal c1 ≤ 9) then
      some (digitVal c1, [])
    else none
  | [] => none

def stepDir (tm : TM) : Dir → List Char → Option (TM × List Char)
  | .lit c, l =>
      (match l with
      | c' :: r => if c' = c then some (tm, r) else none
      | [] => none)
  | .dayD, l => (parse2or1 1 31 1 l).map (fun p => ({tm with day := p.1}, p.2))
  | .monD, l => (parse2or1 1 12 1 l).map (fun p => ({tm with month := p.1}, p.2))
  | .hourD, l => (parse2or1 0 23 0 l).map (fun p => ({tm with hour := p.1}, p.2))
  | .minD, l => (parse2or1 0 59 0 l).map (fun p => ({tm with minute := p.1}, p.2))
  | .secD, l => (parse2or1 0 59 0 l).map (fun p => ({tm with second := p.1}, p.2))
  | .year4, l => (parseNDigits 4 l).map (fun p => ({tm with year := p.1}, p.2))
  | .year2, l =>
      (parseNDigits 2 l).map (fun p =>
        ({tm with year := if p.1 ≤ 68 then 2000 + p.1 else 1900 + p.1}, p.2))

def runDirs : List Dir → TM → List Char → Option TM
  | [], tm, l => if l.isEmpty then some tm else none
  | dir :: ds, tm, l => do
      let (tm2, r) ← stepDir tm dir l
      runDirs ds tm2 r

/-- Models `datetime.strptime(cleaned, fmt)` for one format (full-input
match, then the `datetime` constructor's validity check). -/
def strptimeFmt (dirs : List Dir) (l : List Char) : Option DateTime :=
  match runDirs dirs {} l with
  | none => none
  | some tm => mkDT tm.year tm.month tm.day tm.hour tm.minute tm.second none

def tryFormats : List (List Dir) → List Char → Option DateTime
  | [], _ => none
  | f :: fs, l =>
      (match strptimeFmt f l with
      | some dt => some dt
      | none => tryFormats fs l)

/-- The `datetime_formats` tuple of `OrderItem._normalize_datum`. -/
def datetimeFormats : List (List Dir) :=
  [ [.dayD, .lit '.', .monD, .lit '.', .year4, .lit ' ', .hourD, .lit ':', .minD],
    [.dayD, .lit '.', .monD, .lit '.', .year4, .lit ' ', .hourD, .lit ':', .minD, .lit ':', .secD],
    [.year4, .lit '-', .monD, .lit '-', .dayD, .lit ' ', .hourD, .lit ':', .minD],
    [.year4, .lit '-', .monD, .lit '-', .dayD, .lit ' ', .hourD, .lit ':', .minD, .lit ':', .secD],
    [.dayD, .lit '/', .monD, .lit '/', .year4, .lit ' ', .hourD, .lit ':', .minD],
    [.dayD, .lit '.', .monD, .lit '.', .year2, .lit ' ', .hourD, .lit ':', .minD] ]

/-- The `date_formats` tuple of `OrderItem._normalize_datum`. -/
def dateFormats : List (List Dir) :=
  [ [.dayD, .lit '.', .monD, .lit '.', .year4],
    [.year4, .lit '-', .monD, .lit '-', .dayD],
    [.dayD, .lit '/', .monD, .lit '/', .year4],
    [.dayD, .lit '.', .monD, .lit '.', .year2] ]

/-- Greedy 1-2 digit group, as matched by the regex `\d{1,2}` (no later
separator is a digit, so greediness agrees with backtracking here). -/
def takeUpTo2Digits : List Char → Option (Nat × List Char)
  | c1 :: c2 :: rest =>
    if c1.isDigit then
      if c2.isDigit then some (10 * digitVal c1 + digitVal c2, rest)
      else some (digitVal c1, c2 :: rest)
    else none
  | [c1] => if c1.isDigit then some (digitVal c1, []) else none
  | [] => none

/-- Models `re.match(r"^(\d\x7b1,2\x7d)\.(\d\x7b1,2\x7d)\.?$", compact)`,
returning (day, month). -/
def shortMatch (l : List Char) : Option (Nat × Nat) := do
  let (d, r1) ← takeUpTo2Digits l
  match r1 with
  | '.' :: r2 => do
      let (m, r3) ← takeUpTo2Digits r2
      match r3 with
      | [] => some (d, m)
      | ['.'] => some (d, m)
      | _ => none
  | _ => none

/-! ### isoformat rendering -/

def dc (n : Nat) : Char := Char.ofNat (48 + n)

def pad2 (n : Nat) : List Char := [dc (n / 10 % 10), dc (n % 10)]

def pad4 (n : Nat) : List Char :=
  [dc (n / 1000 % 10), dc (n / 100 % 10), dc (n / 10 % 10), dc (n % 10)]

def renderOffset : Option Int → List Char
  | none => []
  | some o =>
    (if o < 0 then '-' else '+') :: (pad2 (o.natAbs / 60) ++ ':' :: pad2 (o.natAbs % 60))

/-- Models `datetime.isoformat()` with `microsecond=0`:
`YYYY-MM-DDTHH:MM:SS` plus the offset for an aware datetime. -/
def isoRenderL (dt : DateTime) : List Char :=
  pad4 dt.year ++ '-' :: pad2 dt.month ++ '-' :: pad2 dt.day ++
    'T' :: pad2 dt.hour ++ ':' :: pad2 dt.minute ++ ':' :: pad2 dt.second ++
    renderOffset dt.offset

def isoRender (dt : DateTime) : String := ⟨isoRenderL dt⟩

/-- Models `OrderItem._normalize_datum` on the characters of a string value
(`cleaned` of the source is `stripL l`, written out at each use site).
`todayYear` stands for `date.today().year`. -/
def normalizeDatumL (todayYear : Nat) (l : List Char) : Option String :=
  if (stripL l).isEmpty then none
  else
    match fromIsoL (zrepL (stripL l)) with
    | some dt => some (isoRender dt)
    | none =>
      match tryFormats datetimeFormats (stripL l) with
      | some dt => some (isoRender dt)
      | none =>
        match tryFormats dateFormats (stripL l) with
        | some dt => some (isoRender dt)
        | none =>
          match shortMatch (dropSpacesL (stripL l)) with
          | some (d, m) =>
            (match mkDT todayYear m d 0 0 0 none with
            | some dt => some (isoRender dt)
            | none => none)
          | none => none

/-- Models `OrderItem._normalize_datum` on a string value (the `datetime` /
`date` instance branches of the source apply to Python objects that cannot
arise from JSON input and are omitted). -/
def normalizeDatumCore (todayYear : Nat) (s : String) : Option String :=
  normalizeDatumL todayYear s.data

/-! ## Product allow-list (order_prompt_config.load_product_list and friends) -/

/-- The "Produktliste_Order_Erfassung.xlsx" file as seen by
`_load_products_for_defaults`: whether the `Produktbezeichnung` column
exists and its cells (`none` = NaN). -/
structure ProductTable where
  hasColumn : Bool
  values : List (Option String)

def dedupFirst (seen : List String) : List String → List String
  | [] => []
  | v :: rest =>
    if seen.contains v then dedupFirst seen rest
    else v :: dedupFirst (v :: seen) rest

/-- Models `_load_products_for_defaults`: absent file or absent column give
`[]`; otherwise the non-NaN cells are stringified, stripped, blanks dropped
and duplicates removed keeping the first occurrence. -/
def loadProductsForDefaults (file : Option ProductTable) : List String :=
  match file with
  | none => []
  | some t =>
    if t.hasColumn then
      dedupFirst [] (((t.values.filterMap id).map pyStrip).filter (fun v => v ≠ ""))
    else []

def fallbackProducts : List String :=
  ["Kardamomknoten", "Zimtknoten", "Rustico", "Classico", "Baguette"]

/-- Models `allowed_product_values` (`values or fallback`). -/
def allowed_product_values (file : Option ProductTable) : List String :=
  let values := loadProductsForDefaults file
  if values.isEmpty then fallbackProducts else values

/-- Ambient state the validators read: the product allow-list (the source
calls `allowed_product_values()` directly) and `date.today().year`. -/
structure Env where
  allowed : List String
  todayYear : Nat

/-! ## OrderItem validation (order_prompt_config.OrderItem)

Each `vX` function models pydantic's validation of one field: it receives
the looked-up JSON value (`none` = key absent, so the field default
applies), runs the `mode="before"` validator from the source, then the type
/ constraint check.  Error messages are abridged; only their presence
matters to the engine. -/

structure OrderItem where
  notiz_kunde : Option String
  abgeholt : String
  datum : Option String
  menge : Int
  produkt : String
  eintragender : Option String
  wohin : Option String
  zahlung : Option String
deriving Repr

/-- Models pydantic's `populate_by_name=True` lookup: alias first, then the
field name. -/
def fieldVal (row : List (String × Json)) (aliasKey fname : String) : Option Json :=
  match dictGet row aliasKey with
  | some v => some v
  | none => dictGet row fname

/-- Models `OrderItem._empty_to_none`. -/
def emptyToNone (j : Json) : Json :=
  match j with
  | .str s => if (stripL s.data).isEmpty then .null else j
  | _ => j

def vNotizKunde (v : Option Json) : Except String (Option String) :=
  match v with
  | none => .ok none
  | some j =>
    match emptyToNone j with
    | .null => .ok none
    | .str s => .ok (some s)
    | _ => .error "Notiz/Kunde: valid string required"

def vAbgeholt (v : Option Json) : Except String String :=
  match v with
  | none => .ok "Nein"
  | some (.str s) =>
    if s = "Ja" || s = "Nein" then .ok s
    else .error "Abgeholt: input should be Ja or Nein"
  | some _ => .error "Abgeholt: input should be Ja or Nein"

def vDatum (todayYear : Nat) (v : Option Json) : Except String (Option String) :=
  match v with
  | none => .ok none
  | some j =>
    match j with
    | .null => .ok none
    | .str s => .ok (normalizeDatumCore todayYear s)
    | _ => .error "Datum: valid string required"

/-- Models pydantic's lax string-to-int coercion for the `Menge` field. -/
def pyStrToInt (s : String) : Option Int :=
  let l := stripL s.data
  let (neg, l') : Bool × List Char :=
    match l with
    | '-' :: r => (true, r)
    | '+' :: r => (false, r)
    | _ => (false, l)
  match l' with
  | [] => none
  | _ =>
    if l'.all Char.isDigit then
      some ((if neg then -1 else 1) * Int.ofNat (digitsToNat l'))
    else none

def vMenge (v : Option Json) : Except String Int :=
  match v with
  | none => .error "Menge: field required"
  | some (.num n) => if 1 ≤ n then .ok n else .error "Menge: input should be greater than or equal to 1"
  | some (.str s) =>
    (match pyStrToInt s with
    | some n => if 1 ≤ n then .ok n else .error "Menge: input should be greater than or equal to 1"
    | none => .error "Menge: valid integer required")
  | some _ => .error "Menge: valid integer required"

/-- Models `OrderItem._validate_produkt` (run after the `str` type check). -/
def vProdukt (allowed : List String) (v : Option Json) : Except String String :=
  match v with
  | none => .error "Produkt: field required"
  | some (.str s) =>
    let cleaned := pyStrip s
    if cleaned = "" then .error "Produkt ist erforderlich."
    else if !allowed.isEmpty && !(allowed.contains cleaned) then
      .error "Produkt muss einer der erlaubten Werte sein"
    else .ok cleaned
  | some _ => .error "Produkt: valid string required"

def vEintragender (v : Option Json) : Except String (Option String) :=
  match v with
  | none => .ok none
  | some j =>
    match emptyToNone j with
    | .null => .ok none
    | .str s => .ok (some s)
    | _ => .error "Eintragender: valid string required"

def vWohin (v : Option Json) : Except String (Option String) :=
  match v with
  | none => .ok (some "Wieblingen")
  | some .null => .ok none
  | some (.str s) => .ok (some s)
  | some _ => .error "Wohin: valid string required"

def zahlungEnum : List String :=
  ["Vor Ort", "Online", "Per Rechnung", "Schon bezahlt", "Unklar"]

/-- The synonym dictionary of `OrderItem._normalize_zahlung`. -/
def zahlungMap (s : String) : Option String :=
  if s = "vor ort" then some "Vor Ort"
  else if s = "online" then some "Online"
  else if s = "per rechnung" then some "Per Rechnung"
  else if s = "rechnung" then some "Per Rechnung"
  else if s = "schon bezahlt" then some "Schon bezahlt"
  else if s = "bezahlt" then some "Schon bezahlt"
  else if s = "unklar" then some "Unklar"
  else none

/-- Models `OrderItem._normalize_zahlung`: on no dictionary match the
original value is passed through unchanged. -/
def nzahlung (j : Json) : Json :=
  match j with
  | .null => .null
  | .str s =>
    let normalized := pyLower (pyStrip s)
    if normalized = "" then .null
    else
      (match zahlungMap normalized with
      | some c => .str c
      | none => .str s)
  | _ => j

def vZahlung (v : Option Json) : Except String (Option String) :=
  match v with
  | none => .ok (some "Vor Ort")
  | some j =>
    match nzahlung j with
    | .null => .ok none
    | .str s =>
      if zahlungEnum.contains s then .ok (some s)
      else .error "Zahlung: input should be a legal payment value"
    | _ => .error "Zahlung: input should be a legal payment value"

/-- Models `OrderItem.model_validate` on a JSON object (pydantic validates
each field; `extra="ignore"` means unknown keys are simply never looked
up). -/
def validateOrderItem (env : Env) (row : List (String × Json)) :
    Except String OrderItem := do
  let nk ← vNotizKunde (fieldVal row "Notiz/Kunde" "notiz_kunde")
  let ab ← vAbgeholt (fieldVal row "Abgeholt" "abgeholt")
  let da ← vDatum env.todayYear (fieldVal row "Datum" "datum")
  let mg ← vMenge (fieldVal row "Menge" "menge")
  let pr ← vProdukt env.allowed (fieldVal row "Produkt" "produkt")
  let ei ← vEintragender (fieldVal row "Eintragender" "eintragender")
  let wo ← vWohin (fieldVal row "Wohin" "wohin")
  let za ← vZahlung (fieldVal row "Zahlung" "zahlung")
  return ⟨nk, ab, da, mg, pr, ei, wo, za⟩

def optStr : Option String → Json
  | none => .null
  | some s => .str s

/-- Field list of `OrderItem.model_dump(by_alias=True)`. -/
def dumpRow (it : OrderItem) : List (String × Json) :=
  [ ("Notiz/Kunde", optStr it.notiz_kunde),
    ("Abgeholt", .str it.abgeholt),
    ("Datum", optStr it.datum),
    ("Menge", .num it.menge),
    ("Produkt", .str it.produkt),
    ("Eintragender", optStr it.eintragender),
    ("Wohin", optStr it.wohin),
    ("Zahlung", optStr it.zahlung) ]

/-- Models `OrderItem.model_dump(by_alias=True)`. -/
def dumpOrderItem (it : OrderItem) : Json := .obj (dumpRow it)

/-! ## Payload validation (order_prompt_config.validate_orders_payload) -/

/-- Models the candidate construction in `validate_orders_payload`:
`dict(row)` plus the default-`Eintragender` injection guarded by Python
truthiness. -/
def buildCandidate (dE : String) (rkvs : List (String × Json)) :
    List (String × Json) :=
  if (!(dE = "")) && jFalsy ((dictGet rkvs "Eintragender").getD .null) then
    dictSet rkvs "Eintragender" (.str dE)
  else rkvs

/-- Models Python iteration `for row in x`: lists yield elements, strings
yield single-character strings, dicts yield their keys, everything else
raises `TypeError`. -/
def iterRows : Json → Except String (List Json)
  | .arr xs => .ok xs
  | .str s => .ok (s.data.map (fun c => Json.str ⟨[c]⟩))
  | .obj kvs => .ok (kvs.map (fun kv => Json.str kv.1))
  | _ => .error "TypeError: object is not iterable"

def mapE (f : α → Except String β) : List α → Except String (List β)
  | [] => .ok []
  | a :: rest =>
    match f a with
    | .error e => .error e
    | .ok b =>
      match mapE f rest with
      | .error e => .error e
      | .ok bs => .ok (b :: bs)

/-- Body of the first-pass loop of `validate_orders_payload`: skip non-dict
rows, inject the default, validate, drop failures silently, dump
survivors. -/
def firstPassRow (env : Env) (dE : String) (row : Json) : Option Json :=
  match row with
  | .obj rkvs =>
    (match validateOrderItem env (buildCandidate dE rkvs) with
    | .ok item => some (dumpOrderItem item)
    | .error _ => none)
  | _ => none

/-- Body of the second pass (`OrderItem.model_validate(order)` on each
already-normalized dict); a failure here escapes as an uncaught
`ValidationError`. -/
def secondPassItem (env : Env) (d : Json) : Except String OrderItem :=
  match d with
  | .obj dk => validateOrderItem env dk
  | _ => .error "ValidationError: dict required"

/-- Models `validate_orders_payload`.  The `.error` results stand for
uncaught Python exceptions (`TypeError` from iterating a non-iterable
`orders` value, or a `ValidationError` escaping the second validation
pass). -/
def validate_orders_payload (env : Env) (dE : String) (payload : Json) :
    Except String Json :=
  match payload with
  | .obj kvs =>
    (match iterRows ((dictGet kvs "orders").getD (.arr [])) with
    | .error e => .error e
    | .ok rows =>
      match mapE (secondPassItem env) (rows.filterMap (firstPassRow env dE)) with
      | .error e => .error e
      | .ok items => .ok (.obj [("orders", .arr (items.map dumpOrderItem))]))
  | _ => .ok (.obj [("orders", .arr [])])

structure NormReport where
  raw_orders : Nat
  valid_orders : Nat
  dropped_orders : Nat
deriving DecidableEq, Repr

/-- Models `validate_orders_payload_with_report` (Nat subtraction truncates
at zero exactly like the source's `max(0, raw - valid)`). -/
def validate_orders_payload_with_report (env : Env) (dE : String)
    (payload : Json) : Except String (Json × NormReport) :=
  let rawCount : Nat :=
    match payload with
    | .obj kvs =>
      (match dictGet kvs "orders" with
      | some (.arr xs) => xs.length
      | _ => 0)
    | _ => 0
  match validate_orders_payload env dE payload with
  | .error e => .error e
  | .ok normalized =>
    let validCount : Nat :=
      match jGet normalized "orders" with
      | some (.arr xs) => xs.length
      | _ => 0
    .ok (normalized, ⟨rawCount, validCount, rawCount - validCount⟩)

/-- Models `structured_extraction._normalize_orders`: the context's
`default_eintragender` is stringified and stripped before use. -/
def normalizeOrders (env : Env) (ctxDefault : String) (payload : Json) :
    Except String (Json × NormReport) :=
  validate_orders_payload_with_report env (pyStrip ctxDefault) payload

/-! ## Extraction engine (structured_extraction.extract_with_repair)

The LLM provider is modelled as a deterministic oracle from the current
message list to the `choices[0].message` of its response, which captures
the strictly sequential conversation-extension protocol of the source. -/

structure ToolFunction where
  /-- Value of `getattr(fn, "arguments", None)`; `Json.null` models `None`,
  and non-string values are represented by the other constructors. -/
  arguments : Json

structure ToolCall where
  function : Option ToolFunction

/-- The `choices[0].message` object of a chat-completion response. -/
structure LLMResponse where
  tool_calls : Option (List ToolCall)
  content : Json

structure Message where
  role : String
  content : Json

/-- First half of `_extract_arguments`: the first tool call's arguments when
they are a non-blank string. -/
def toolCandidate (r : LLMResponse) : Option String :=
  match r.tool_calls.getD [] with
  | [] => none
  | tc :: _ =>
    match tc.function with
    | none => none
    | some f =>
      match f.arguments with
      | .str s => if (stripL s.data).isEmpty then none else some s
      | _ => none

/-- Second half of `_extract_arguments`: non-blank plain-text content. -/
def textCandidate (r : LLMResponse) : Option String :=
  match r.content with
  | .str c => if (stripL c.data).isEmpty then none else some c
  | _ => none

/-- Models `_extract_arguments`. -/
def extractArguments (r : LLMResponse) : String :=
  match toolCandidate r with
  | some s => s
  | none =>
    match textCandidate r with
    | some c => c
    | none => "\x7b\x7d"

/-- Models `_json_error_message`. -/
def jsonErrorMessage (rawArgs err : String) : String :=
  "The following JSON failed schema validation.\n\n" ++
  "Re-read the original source content from this conversation and only correct invalid parts.\n\n" ++
  "JSON:\n" ++ rawArgs ++ "\n\nValidation error:\n" ++ err ++
  "\n\nFix ONLY invalid fields and return corrected JSON that fully matches the schema."

def repairMessage (rawArgs err : String) : Message :=
  ⟨"user", .str (jsonErrorMessage rawArgs err)⟩

/-- Strict per-item validation used by `OrdersPayload.model_validate_json`:
a non-object entry of the `orders` list raises `ValidationError`. -/
def strictItem (env : Env) (j : Json) : Except String OrderItem :=
  match j with
  | .obj rkvs => validateOrderItem env rkvs
  | _ => .error "ValidationError: orders item must be an object"

/-- Models `OrdersPayload.model_validate_json(raw_args).model_dump(by_alias=True)`:
strict validation, where malformed JSON, a non-object payload, a non-list
`orders` value or any single invalid item raise `ValidationError`
(modelled as `.error`). -/
def modelValidateOrders (env : Env) (raw : String) : Except String Json :=
  match jsonParse raw with
  | none => .error "ValidationError: invalid JSON"
  | some (.obj kvs) =>
    (match (dictGet kvs "orders").getD (.arr []) with
    | .arr xs =>
      (match mapE (strictItem env) xs with
      | .error e => .error e
      | .ok items => .ok (.obj [("orders", .arr (items.map dumpOrderItem))]))
    | _ => .error "ValidationError: orders must be a list")
  | some _ => .error "ValidationError: object expected"

/-- Per-call diagnostic record.  The source builds it as a dict; on the
success path the `fallback_used` and `validation_error` keys are absent,
modelled here as `false` / `none`. -/
structure Trace where
  attempts : Nat
  raw_arguments : String
  target_key : String
  pattern : String
  fallback_used : Bool
  validation_error : Option String
  normalization : NormReport
deriving Repr

/-- Result of one engine call: success, `StructuredExtractionError`, or an
uncaught Python-level error (`TypeError` escaping the fallback
normalization). -/
inductive Outcome where
  | ok (payload : Json) (trace : Trace)
  | extractionError (message : String) (cause : Option String)
  | pyError (message : String)

/-- Models the fallback salvage parse: `json.loads`, a top-level array
replaced by its first element (or an empty dict), non-dicts and parse
failures replaced by an empty dict. -/
def fallbackParse (raw : String) : Json :=
  match jsonParse raw with
  | some (.arr []) => .obj []
  | some (.arr (x :: _)) =>
    (match x with
    | .obj kvs => .obj kvs
    | _ => .obj [])
  | some (.obj kvs) => .obj kvs
  | some _ => .obj []
  | none => .obj []

/-- Models `any(isinstance(value, list) and len(value) > 0 for value in normalized.values())`. -/
def hasStructuredContent : Json → Bool
  | .obj kvs =>
    kvs.any (fun kv =>
      match kv.2 with
      | .arr (_ :: _) => true
      | _ => false)
  | _ => false

def failMsg (attempts : Nat) : String :=
  "Extraction failed for target orders_v1 after " ++ toString attempts ++ " attempts"

/-- Models the code after the repair loop: salvage, flagged success, or
`StructuredExtractionError` from the last validation error. -/
def fallbackStep (env : Env) (dE : String) (raw err : String) (attempts : Nat) :
    Outcome :=
  match normalizeOrders env dE (fallbackParse raw) with
  | .error e => .pyError e
  | .ok (norm, rep) =>
    if hasStructuredContent norm then
      .ok norm ⟨attempts, raw, "orders_v1", "tool_call_repair", true, some err, rep⟩
    else .extractionError (failMsg attempts) (some err)

/-- The repair loop of `extract_with_repair`, with the message list and the
zero-based attempt index made explicit; also returns the list of message
lists passed to the LLM, one entry per call, in order. -/
def extractLoop (env : Env) (oracle : List Message → LLMResponse) (dE : String) :
    Nat → List Message → Nat → Outcome × List (List Message)
  | remaining, msgs, attemptIdx =>
    let raw := extractArguments (oracle msgs)
    match modelValidateOrders env raw with
    | .ok parsed =>
      (match normalizeOrders env dE parsed with
      | .ok (norm, rep) =>
        (.ok norm ⟨attemptIdx + 1, raw, "orders_v1", "tool_call_repair", false, none, rep⟩,
         [msgs])
      | .error e => (.pyError e, [msgs]))
    | .error err =>
      match remaining with
      | 0 => (fallbackStep env dE raw err (attemptIdx + 1), [msgs])
      | r + 1 =>
        let next := extractLoop env oracle dE r (msgs ++ [repairMessage raw err]) (attemptIdx + 1)
        (next.1, msgs :: next.2)

def initMsgs (sys : String) (user : Json) : List Message :=
  [⟨"system", .str sys⟩, ⟨"user", user⟩]

/-- Models `extract_with_repair` for the `orders_v1` target. -/
def extract_with_repair (env : Env) (oracle : List Message → LLMResponse)
    (sys : String) (user : Json) (ctxDefault : String) (maxRetries : Nat := 2) :
    Outcome × List (List Message) :=
  extractLoop env oracle ctxDefault maxRetries (initMsgs sys user) 0

/-- One conversation-extension step of the repair loop: append a repair
message exactly when the current response fails validation. -/
def msgsStep (env : Env) (oracle : List Message → LLMResponse)
    (ms : List Message) : List Message :=
  let raw := extractArguments (oracle ms)
  match modelValidateOrders env raw with
  | .ok _ => ms
  | .error e => ms ++ [repairMessage raw e]

/-- The message list the loop holds before attempt `n` (assuming every
earlier attempt failed validation; on an earlier success the sequence is
constant from there on and the loop has already returned). -/
def msgsSeq (env : Env) (oracle : List Message → LLMResponse)
    (init : List Message) : Nat → List Message
  | 0 => init
  | n + 1 =>
    let ms := msgsSeq env oracle init n
    let raw := extractArguments (oracle ms)
    match modelValidateOrders env raw with
    | .ok _ => ms
    | .error e => ms ++ [repairMessage raw e]

def rawAt (env : Env) (oracle : List Message → LLMResponse)
    (init : List Message) (n : Nat) : String :=
  extractArguments (oracle (msgsSeq env oracle init n))

def validAt (env : Env) (oracle : List Message → LLMResponse)
    (init : List Message) (n : Nat) : Except String Json :=
  modelValidateOrders env (rawAt env oracle init n)

def errAt (env : Env) (oracle : List Message → LLMResponse)
    (init : List Message) (n : Nat) : String :=
  match validAt env oracle init n with
  | .error e => e
  | .ok _ => ""

/-! ## Image caller adapter (api/services/image_extractor.py) -/

structure ImageExtractResponse where
  request_id : String
  status : String
  columns : List String
  rows : List (List (String × String))
  orders : List Json
  warnings : List String
  model_version : String

mutual

def jsonDumps : Json → String
  | .null => "null"
  | .bool b => if b then "true" else "false"
  | .num n => toString n
  | .str s => "\"" ++ s ++ "\""
  | .arr xs => "[" ++ jsonDumpsElems xs ++ "]"
  | .obj kvs => "\x7b" ++ jsonDumpsFields kvs ++ "\x7d"

def jsonDumpsElems : List Json → String
  | [] => ""
  | [x] => jsonDumps x
  | x :: y :: rest => jsonDumps x ++ ", " ++ jsonDumpsElems (y :: rest)

def jsonDumpsFields : List (String × Json) → String
  | [] => ""
  | [(k, v)] => "\"" ++ k ++ "\": " ++ jsonDumps v
  | (k, v) :: p :: rest => "\"" ++ k ++ "\": " ++ jsonDumps v ++ ", " ++ jsonDumpsFields (p :: rest)

end

/-- Models `_stringify`; the container branches delegate to `json.dumps`
(string escaping elided there — the claims below only ever stringify scalar
template and order fields). -/
def pyStringify : Json → String
  | .null => ""
  | .str s => s
  | .num n => toString n
  | .bool b => if b then "True" else "False"
  | .arr xs => jsonDumps (.arr xs)
  | .obj kvs => jsonDumps (.obj kvs)

/-- Models `order_field_names()`: the aliases of the `OrderItem` fields in
declaration order. -/
def order_field_names : List String :=
  ["Notiz/Kunde", "Abgeholt", "Datum", "Menge", "Produkt", "Eintragender",
   "Wohin", "Zahlung"]

/-- The single template order row of `default_output_schema`
(`default_eintragender or None`). -/
def templateOrder (dE : String) : List (String × Json) :=
  [ ("Notiz/Kunde", .null), ("Abgeholt", .str "Nein"), ("Datum", .null),
    ("Menge", .num 1), ("Produkt", .str ""),
    ("Eintragender", if dE = "" then .null else .str dE),
    ("Wohin", .str "Wieblingen"), ("Zahlung", .str "Vor Ort") ]

/-- Models `default_output_schema`. -/
def default_output_schema (dE : String) : Json :=
  .obj [("orders", .arr [.obj (templateOrder dE)])]

/-- Models `_default_columns_from_template`. -/
def defaultColumnsFromTemplate (t : Json) : List String :=
  match jGet t "orders" with
  | some (.arr (first :: _)) =>
    (match first with
    | .obj kvs => kvs.map (·.1)
    | _ => [])
  | _ => []

/-- Models `_default_order_from_template` (`deepcopy` is the identity in a
pure setting). -/
def defaultOrderFromTemplate (t : Json) : List (String × Json) :=
  match jGet t "orders" with
  | some (.arr (first :: _)) =>
    (match first with
    | .obj kvs => kvs
    | _ => [])
  | _ => []

/-- Models the `fallback_order.setdefault(column, "")` loop. -/
def setDefaults (kvs : List (String × Json)) (columns : List String) :
    List (String × Json) :=
  columns.foldl (fun acc col =>
    if acc.any (fun p => p.1 = col) then acc else acc ++ [(col, .str "")]) kvs

/-- Models `_orders_to_rows` (each order is a dict in every reachable call;
`order.get(column, "")` on the declared column set). -/
def ordersToRows (orders : List Json) (columns : List String) :
    List (List (String × String)) :=
  orders.map (fun order =>
    columns.map (fun col => (col, pyStringify ((jGet order col).getD (.str "")))))

/-- Models `_build_dummy_response`. -/
def buildDummyResponse (request_id dE warning : String) (outputTemplate : Json)
    (model_version : String) : ImageExtractResponse :=
  let columns := defaultColumnsFromTemplate outputTemplate
  let fallbackOrder := defaultOrderFromTemplate outputTemplate
  let fallbackOrder1 :=
    if (!(dE = "")) && jFalsy ((dictGet fallbackOrder "Eintragender").getD .null) then
      dictSet fallbackOrder "Eintragender" (.str dE)
    else fallbackOrder
  let fallbackOrder2 :=
    if columns.isEmpty then fallbackOrder1 else setDefaults fallbackOrder1 columns
  let columns2 := if columns.isEmpty then fallbackOrder1.map (·.1) else columns
  let orders := [Json.obj fallbackOrder2]
  { request_id := request_id, status := "ok", columns := columns2,
    rows := ordersToRows orders columns2, orders := orders,
    warnings := [warning], model_version := model_version }

/-- Models `extract_orders_from_image`.  The engine call is a parameter: a
successful `(payload, trace)` pair or the class name of whatever exception
the OpenAI client or the engine raised (the `except Exception` handler of
the source catches them all).  The `.error` results of this definition model
uncaught Python errors on payloads no engine success can produce (a non-dict
payload or a non-list `orders` value).  The `if not columns and orders`
branch of the source is dead (`order_field_names()` is a static non-empty
list) and not modelled. -/
def extract_orders_from_image (apiKey : String)
    (engine : Except String (Json × Trace)) (request_id dEraw : String) :
    Except String ImageExtractResponse :=
  let model_name := "gpt-4o"
  let dE := pyStrip dEraw
  let outputTemplate := default_output_schema dE
  if pyStrip apiKey = "" then
    .ok (buildDummyResponse request_id dE
      "OPENAI_API_KEY fehlt, dummy response verwendet." outputTemplate model_name)
  else
    match engine with
    | .error excName =>
      .ok (buildDummyResponse request_id dE
        ("OpenAI extraction failed (" ++ excName ++ "), dummy response verwendet.")
        outputTemplate model_name)
    | .ok (parsed, _) =>
      match parsed with
      | .obj kvs =>
        (match (dictGet kvs "orders").getD (.arr []) with
        | .arr orders =>
          if orders.isEmpty then
            .ok (buildDummyResponse request_id dE
              "Keine orders erkannt, dummy response verwendet." outputTemplate model_name)
          else
            .ok { request_id := request_id, status := "ok",
                  columns := order_field_names,
                  rows := ordersToRows orders order_field_names,
                  orders := orders, warnings := [], model_version := model_name }
        | _ => .error "TypeError: orders value is not a list")
      | _ => .error "AttributeError: parsed payload is not a dict"

/-! ## Claim-support definitions -/

/-- Decimal rendering of a one- or two-digit number (the day and month
groups matched by the short `D.M.` pattern). -/
def natDigits (v : Nat) : List Char :=
  if v < 10 then [dc v] else [dc (v / 10), dc (v % 10)]

/-- A string of shape `D.M.` / `D.M`: one- or two-digit day, dot, one- or
two-digit month, optional trailing dot. -/
def dmChars (d m : Nat) (t : Bool) : List Char :=
  natDigits d ++ '.' :: (natDigits m ++ (if t then ['.'] else []))

def dmString (d m : Nat) (t : Bool) : String := ⟨dmChars d m t⟩

/-- Midnight of the given day in ISO-8601 form, e.g. `2025-12-24T00:00:00`. -/
def midnightIso (y m d : Nat) : String := isoRender ⟨y, m, d, 0, 0, 0, none⟩

/-- Bundled decidable facts about one `D.M.` string: it passes untouched
through strip / `Z`-replacement / space removal, every earlier date parser
rejects it, and the short pattern recovers exactly (day, month). -/
def checkDM (d m : Nat) (t : Bool) : Bool :=
  let l := dmChars d m t
  !l.isEmpty &&
  decide (stripL l = l) && decide (zrepL l = l) && decide (dropSpacesL l = l) &&
  decide (fromIsoL l = none) &&
  decide (tryFormats datetimeFormats l = none) &&
  decide (tryFormats dateFormats l = none) &&
  decide (shortMatch l = some (d, m))

/-- Shape of an optional rendered UTC offset (`±HH:MM` with in-range
components), the tail of a valid ISO-8601 date-time string. -/
def offShape : List Char → Bool
  | [] => true
  | [sgn, h1, h2, ':', m1, m2] =>
    (sgn = '+' || sgn = '-') && h1.isDigit && h2.isDigit && m1.isDigit && m2.isDigit &&
    (10 * digitVal h1 + digitVal h2 ≤ 23) && (10 * digitVal m1 + digitVal m2 ≤ 59)
  | _ => false

/-- Shape of a valid ISO-8601 date-time string as the spec uses the term:
`YYYY-MM-DDTHH:MM:SS` with in-range components plus an optional offset
(written from the spec's words, to compare validator output against). -/
def isoShape : List Char → Bool
  | y1 :: y2 :: y3 :: y4 :: '-' :: a1 :: a2 :: '-' :: b1 :: b2 :: 'T' ::
      h1 :: h2 :: ':' :: m1 :: m2 :: ':' :: s1 :: s2 :: rest =>
    ([y1, y2, y3, y4, a1, a2, b1, b2, h1, h2, m1, m2, s1, s2].all Char.isDigit) &&
    (let y := 1000 * digitVal y1 + 100 * digitVal y2 + 10 * digitVal y3 + digitVal y4
     let mo := 10 * digitVal a1 + digitVal a2
     let dy := 10 * digitVal b1 + digitVal b2
     (1 ≤ y) && (1 ≤ mo) && (mo ≤ 12) && (1 ≤ dy) && (dy ≤ daysInMonth y mo) &&
     (10 * digitVal h1 + digitVal h2 ≤ 23) &&
     (10 * digitVal m1 + digitVal m2 ≤ 59) &&
     (10 * digitVal s1 + digitVal s2 ≤ 59)) &&
    offShape rest
  | _ => false

def isIso8601 (s : String) : Bool := isoShape s.data

/-- The invariant every validated `OrderItem` satisfies (claim C3, stated on
the structure). -/
def ItemInv (env : Env) (it : OrderItem) : Prop :=
  (it.abgeholt = "Ja" ∨ it.abgeholt = "Nein") ∧
  1 ≤ it.menge ∧
  pyStrip it.produkt = it.produkt ∧ it.produkt ≠ "" ∧
  (env.allowed ≠ [] → it.produkt ∈ env.allowed) ∧
  (it.zahlung = none ∨ ∃ z, it.zahlung = some z ∧ z ∈ zahlungEnum) ∧
  (it.datum = none ∨ ∃ ds, it.datum = some ds ∧ isIso8601 ds = true)

/-- The invariant stated on a dumped order row (claim C3, as the claim
phrases it on payload items). -/
def RowInv (env : Env) (row : Json) : Prop :=
  (∃ n : Int, jGet row "Menge" = some (.num n) ∧ 1 ≤ n) ∧
  (jGet row "Abgeholt" = some (.str "Ja") ∨ jGet row "Abgeholt" = some (.str "Nein")) ∧
  (∃ p, jGet row "Produkt" = some (.str p) ∧ pyStrip p = p ∧ p ≠ "" ∧
    (env.allowed ≠ [] → p ∈ env.allowed)) ∧
  (jGet row "Datum" = some .null ∨
    ∃ ds, jGet row "Datum" = some (.str ds) ∧ isIso8601 ds = true)

/-- Order rows of a payload object. -/
def jOrdersList (j : Json) : List Json :=
  match jGet j "orders" with
  | some (.arr l) => l
  | _ => []

/-! ### Concrete instances for witnesses and counterexamples -/

/-- Environment with the product file absent (fallback allow-list active)
and the current year 2025. -/
def env0 : Env := ⟨allowed_product_values none, 2025⟩

/-- A response whose first tool call carries the given arguments string. -/
def respOf (s : String) : LLMResponse := ⟨some [⟨some ⟨.str s⟩⟩], .null⟩

def goodArgs : String :=
  "\x7b\"orders\": [\x7b\"Menge\": 2, \"Produkt\": \"Classico\"\x7d]\x7d"

def badArgs : String :=
  "\x7b\"orders\": [\x7b\"Menge\": 0, \"Produkt\": \"Classico\"\x7d]\x7d"

def mixedArgs : String :=
  "\x7b\"orders\": [\x7b\"Menge\": 0, \"Produkt\": \"Classico\"\x7d, \x7b\"Menge\": 3, \"Produkt\": \"Rustico\"\x7d]\x7d"

def intOrdersArgs : String := "\x7b\"orders\": 5\x7d"

/-- Oracle that fails schema validation on the first attempt (two messages
in the conversation) and returns a corrected payload once the repair
message has been appended. -/
def orcRepair : List Message → LLMResponse := fun ms =>
  if ms.length ≤ 2 then respOf badArgs else respOf goodArgs

def orcMixed : List Message → LLMResponse := fun _ => respOf mixedArgs

def orcBad : List Message → LLMResponse := fun _ => respOf badArgs

def orcInt : List Message → LLMResponse := fun _ => respOf intOrdersArgs

/-- A content-free response: no tool calls, `content = None`. -/
def orcEmpty : List Message → LLMResponse := fun _ => ⟨none, .null⟩

def itemClassico2 : OrderItem :=
  ⟨none, "Nein", none, 2, "Classico", none, some "Wieblingen", some "Vor Ort"⟩

def itemRustico3 : OrderItem :=
  ⟨none, "Nein", none, 3, "Rustico", none, some "Wieblingen", some "Vor Ort"⟩

def menge1Err : String := "Menge: input should be greater than or equal to 1"

/-- Payload carrying an explicit empty-string `Wohin` (claim C9). -/
def wohinPayload : Json :=
  .obj [("orders", .arr [.obj [("Menge", .num 1), ("Produkt", .str "Classico"),
                               ("Wohin", .str "")]])]

def wohinOutItem : OrderItem :=
  ⟨none, "Nein", none, 1, "Classico", none, some "", some "Vor Ort"⟩

/-- A valid single-row payload used as a concrete witness input. -/
def onePayload : Json :=
  .obj [("orders", .arr [.obj [("Menge", .num 2), ("Produkt", .str "Classico"),
                               ("Datum", .str "24.12.")]])]

def onePayloadItem : OrderItem :=
  ⟨none, "Nein", some "2025-12-24T00:00:00", 2, "Classico", none,
   some "Wieblingen", some "Vor Ort"⟩

/-- The stringified template row produced by the dummy response (the
`Eintragender` cell stringifies to the default itself in both the empty and
the non-empty case). -/
def templateRowCells (dE : String) : List (String × String) :=
  [ ("Notiz/Kunde", ""), ("Abgeholt", "Nein"), ("Datum", ""), ("Menge", "1"),
    ("Produkt", ""), ("Eintragender", dE), ("Wohin", "Wieblingen"),
    ("Zahlung", "Vor Ort") ]

/-- Which warning string `extract_orders_from_image` attaches on the two
degraded paths of claim C5. -/
def warningText (apiKey : String) (eng : Except String (Json × Trace)) : String :=
  if pyStrip apiKey = "" then "OPENAI_API_KEY fehlt, dummy response verwendet."
  else
    match eng with
    | .error e => "OpenAI extraction failed (" ++ e ++ "), dummy response verwendet."
    | .ok _ => ""

def traceDummy : Trace := ⟨1, "", "", "", false, none, ⟨0, 0, 0⟩⟩

/-- A concrete successful engine result, used where the engine outcome is
irrelevant. -/
def engW : Except String (Json × Trace) := .ok (.obj [], traceDummy)

def row8a : List (String × Json) := [("Menge", .num 1), ("Produkt", .str "Classico")]

def row8b : List (String × Json) :=
  [("Menge", .num 1), ("Produkt", .str "Classico"), ("Eintragender", .str "Ben")]

def item8a : OrderItem :=
  ⟨none, "Nein", none, 1, "Classico", some "Anna", some "Wieblingen", some "Vor Ort"⟩

def item8b : OrderItem :=
  ⟨none, "Nein", none, 1, "Classico", some "Ben", some "Wieblingen", some "Vor Ort"⟩

/-! ## Helper lemmas -/

theorem dropWhile_dropWhile (p : Char → Bool) (l : List Char) :
    (l.dropWhile p).dropWhile p = l.dropWhile p := by
  induction l with
  | nil => rfl
  | cons a t ih =>
    by_cases hp : p a
    · simp [List.dropWhile_cons, hp, ih]
    · simp [List.dropWhile_cons, hp]

theorem rstrip_append (l : List Char) :
    rstripL l ++ (l.reverse.takeWhile isSpc).reverse = l := by
  unfold rstripL
  conv_rhs => rw [← List.reverse_reverse l,
    ← List.takeWhile_append_dropWhile (p := isSpc) (l := l.reverse)]
  rw [List.reverse_append]

theorem lstrip_cons_of_not_spc {a : Char} {t : List Char} (h : isSpc a = false) :
    lstripL (a :: t) = a :: t := by
  simp [lstripL, List.dropWhile_cons, h]

theorem head_not_spc_of_lstrip_self {a : Char} {t : List Char}
    (h : lstripL (a :: t) = a :: t) : isSpc a = false := by
  by_contra hc
  have ha : isSpc a = true := by revert hc; cases isSpc a <;> simp
  have hlt : lstripL (a :: t) = lstripL t := by
    simp [lstripL, List.dropWhile_cons, ha]
  rw [hlt] at h
  have hlen : (lstripL t).length ≤ t.length := (List.dropWhile_sublist _).length_le
  rw [h] at hlen
  simp at hlen

theorem lstripL_idem (l : List Char) : lstripL (lstripL l) = lstripL l :=
  dropWhile_dropWhile isSpc l

theorem rstripL_idem (l : List Char) : rstripL (rstripL l) = rstripL l := by
  unfold rstripL
  rw [List.reverse_reverse, dropWhile_dropWhile]

theorem lstrip_rstrip_of_lstrip_self {l : List Char} (h : lstripL l = l) :
    lstripL (rstripL l) = rstripL l := by
  cases hr : rstripL l with
  | nil => rfl
  | cons a t =>
    have hpre := rstrip_append l
    rw [hr] at hpre
    cases l with
    | nil => simp at hpre
    | cons b s =>
      have hab : a = b := by
        have hp2 := hpre
        simp only [List.cons_append, List.cons.injEq] at hp2
        exact hp2.1
      subst hab
      exact lstrip_cons_of_not_spc (head_not_spc_of_lstrip_self h)

theorem stripL_idem (l : List Char) : stripL (stripL l) = stripL l := by
  unfold stripL
  rw [lstrip_rstrip_of_lstrip_self (lstripL_idem l), rstripL_idem]

theorem pyStrip_idem (s : String) : pyStrip (pyStrip s) = pyStrip s := by
  unfold pyStrip
  exact congrArg String.mk (stripL_idem s.data)

theorem pyStrip_eq_empty_iff (s : String) : pyStrip s = "" ↔ stripL s.data = [] := by
  unfold pyStrip
  constructor
  · intro h
    exact congrArg String.data h
  · intro h
    rw [h]

/-- One inversion lemma for the eight-field validation chain of
`validateOrderItem`. -/
theorem validateOrderItem_parts {env : Env} {row : List (String × Json)}
    {item : OrderItem} (h : validateOrderItem env row = .ok item) :
    vNotizKunde (fieldVal row "Notiz/Kunde" "notiz_kunde") = .ok item.notiz_kunde ∧
    vAbgeholt (fieldVal row "Abgeholt" "abgeholt") = .ok item.abgeholt ∧
    vDatum env.todayYear (fieldVal row "Datum" "datum") = .ok item.datum ∧
    vMenge (fieldVal row "Menge" "menge") = .ok item.menge ∧
    vProdukt env.allowed (fieldVal row "Produkt" "produkt") = .ok item.produkt ∧
    vEintragender (fieldVal row "Eintragender" "eintragender") = .ok item.eintragender ∧
    vWohin (fieldVal row "Wohin" "wohin") = .ok item.wohin ∧
    vZahlung (fieldVal row "Zahlung" "zahlung") = .ok item.zahlung := by
  unfold validateOrderItem at h
  simp only [bind, Except.bind] at h
  cases h1 : vNotizKunde (fieldVal row "Notiz/Kunde" "notiz_kunde") with
  | error e => rw [h1] at h; exact absurd h (by simp)
  | ok nk =>
  rw [h1] at h
  cases h2 : vAbgeholt (fieldVal row "Abgeholt" "abgeholt") with
  | error e => rw [h2] at h; exact absurd h (by simp)
  | ok ab =>
  rw [h2] at h
  cases h3 : vDatum env.todayYear (fieldVal row "Datum" "datum") with
  | error e => rw [h3] at h; exact absurd h (by simp)
  | ok da =>
  rw [h3] at h
  cases h4 : vMenge (fieldVal row "Menge" "menge") with
  | error e => rw [h4] at h; exact absurd h (by simp)
  | ok mg =>
  rw [h4] at h
  cases h5 : vProdukt env.allowed (fieldVal row "Produkt" "produkt") with
  | error e => rw [h5] at h; exact absurd h (by simp)
  | ok pr =>
  rw [h5] at h
  cases h6 : vEintragender (fieldVal row "Eintragender" "eintragender") with
  | error e => rw [h6] at h; exact absurd h (by simp)
  | ok ei =>
  rw [h6] at h
  cases h7 : vWohin (fieldVal row "Wohin" "wohin") with
  | error e => rw [h7] at h; exact absurd h (by simp)
  | ok wo =>
  rw [h7] at h
  cases h8 : vZahlung (fieldVal row "Zahlung" "zahlung") with
  | error e => rw [h8] at h; exact absurd h (by simp)
  | ok za =>
  rw [h8] at h
  simp only [pure, Except.pure, Except.ok.injEq] at h
  subst h
  exact ⟨rfl, rfl, rfl, rfl, rfl, rfl, rfl, rfl⟩

/-! ## Claims C7, C4, C9 -/

/-- C7: payment-method normalization trims and lower-cases the input and
maps the fixed German synonym dictionary onto the canonical enum labels
("Rechnung" to the invoice label `Per Rechnung`, "vor ort" to the on-site
label `Vor Ort`, "bezahlt" to the already-paid label `Schon bezahlt`); an
input with no dictionary match such as "Bar" passes through unchanged and
is then rejected by the enum constraint, "Bar" not being a legal enum
value. -/
theorem claim_C7 :
    nzahlung (.str "Rechnung") = .str "Per Rechnung" ∧
    nzahlung (.str " RECHNUNG ") = .str "Per Rechnung" ∧
    nzahlung (.str "vor ort") = .str "Vor Ort" ∧
    nzahlung (.str "bezahlt") = .str "Schon bezahlt" ∧
    nzahlung (.str "Bar") = .str "Bar" ∧
    vZahlung (some (.str "Rechnung")) = .ok (some "Per Rechnung") ∧
    vZahlung (some (.str "Bar")) =
      .error "Zahlung: input should be a legal payment value" ∧
    zahlungEnum.contains "Bar" = false :=
  ⟨rfl, rfl, rfl, rfl, rfl, rfl, rfl, rfl⟩

/-- C4 counterexample: with the product-list file absent,
`allowed_product_values` is the non-empty built-in fallback list, not the
empty list, and the non-empty trimmed product string "Brezel" is rejected
by product validation instead of passing. -/
theorem claim_C4_cex :
    allowed_product_values none = fallbackProducts ∧
    fallbackProducts.isEmpty = false ∧
    pyStrip "Brezel" = "Brezel" ∧
    vProdukt (allowed_product_values none) (some (.str "Brezel")) =
      .error "Produkt muss einer der erlaubten Werte sein" :=
  ⟨rfl, rfl, rfl, rfl⟩

/-- C4 (amended): when the external product-list file is absent, the
product allow-list degrades to the built-in fallback list of five default
products rather than to an empty list, and the membership constraint is
enforced against that fallback (a fallback member passes, a non-member is
rejected); absence is handled, not a fatal error. -/
theorem claim_C4 :
    allowed_product_values none = fallbackProducts ∧
    fallbackProducts =
      ["Kardamomknoten", "Zimtknoten", "Rustico", "Classico", "Baguette"] ∧
    fallbackProducts.isEmpty = false ∧
    vProdukt (allowed_product_values none) (some (.str "Rustico")) = .ok "Rustico" ∧
    (vProdukt (allowed_product_values none) (some (.str "Brezel"))).isOk = false :=
  ⟨rfl, rfl, rfl, rfl, rfl⟩

/-- C9 counterexample: an order item supplying the empty string for the
destination field `Wohin` validates to an item that retains `""` — the
output row carries `"Wohin": ""`, not null. -/
theorem claim_C9_cex :
    validate_orders_payload env0 "" wohinPayload =
      .ok (.obj [("orders", .arr [dumpOrderItem wohinOutItem])]) ∧
    jGet (dumpOrderItem wohinOutItem) "Wohin" = some (.str "") :=
  ⟨rfl, rfl⟩

/-- C9 (amended): an empty or whitespace-only string supplied for the
optional free-text fields note (`Notiz/Kunde`) and enteredBy
(`Eintragender`) is coerced to null by validation; the destination field
(`Wohin`) has no blank-string coercion and retains a supplied empty
string. -/
theorem claim_C9 (s : String) (h : pyStrip s = "") :
    vNotizKunde (some (.str s)) = .ok none ∧
    vEintragender (some (.str s)) = .ok none ∧
    vWohin (some (.str "")) = .ok (some "") := by
  have he : (stripL s.data).isEmpty = true := by
    rw [(pyStrip_eq_empty_iff s).mp h]
    rfl
  refine ⟨?_, ?_, rfl⟩
  · simp [vNotizKunde, emptyToNone, he]
  · simp [vEintragender, emptyToNone, he]

/-- Witness for C9 at the whitespace-only string `"  "`. -/
theorem claim_C9_witness :
    vNotizKunde (some (.str "  ")) = .ok none ∧
    vEintragender (some (.str "  ")) = .ok none ∧
    vWohin (some (.str "")) = .ok (some "") :=
  claim_C9 "  " rfl

/-! ## Dictionary lemmas and claim C8 -/

theorem dictGet_none_find? {kvs : List (String × Json)} {k : String}
    (h : dictGet kvs k = none) : kvs.find? (fun p => p.1 = k) = none := by
  unfold dictGet at h
  cases hf : kvs.find? (fun p => p.1 = k) with
  | some w => rw [hf] at h; simp at h
  | none => rfl

theorem dictGet_none_any {kvs : List (String × Json)} {k : String}
    (h : dictGet kvs k = none) : kvs.any (fun p => p.1 = k) = false := by
  have hf := dictGet_none_find? h
  rw [List.find?_eq_none] at hf
  rw [List.any_eq_false]
  intro x hx
  exact hf x hx

theorem dictSet_absent {kvs : List (String × Json)} {k : String} {v : Json}
    (h : dictGet kvs k = none) : dictSet kvs k v = kvs ++ [(k, v)] := by
  unfold dictSet
  rw [dictGet_none_any h]
  simp

theorem dictGet_append_absent {kvs : List (String × Json)} {k : String} {v : Json}
    (h : dictGet kvs k = none) : dictGet (kvs ++ [(k, v)]) k = some v := by
  unfold dictGet
  rw [List.find?_append, dictGet_none_find? h]
  simp

theorem str_eq_empty_of_data_nil {s : String} (h : s.data = []) : s = "" := by
  cases s with
  | mk data =>
    have h2 : data = [] := h
    subst h2
    rfl

theorem data_isEmpty_false_of_ne {s : String} (h : s ≠ "") : s.data.isEmpty = false := by
  cases hd : s.data with
  | nil => exact absurd (str_eq_empty_of_data_nil hd) h
  | cons a t => rfl

/-- C8: given a caller context whose default `Eintragender`
(`default_eintragender`, stripped as `_normalize_orders` does) is
non-empty, the candidate construction of `validate_orders_payload` injects
the default into every order row lacking the field before item validation
runs, and the validated item then carries it; a row that already specifies
`Eintragender = "Ben"` is left unchanged and keeps its own value. -/
theorem claim_C8 (env : Env) (ctxDefault : String)
    (hdE : pyStrip ctxDefault ≠ "") (rkvs : List (String × Json)) :
    (dictGet rkvs "Eintragender" = none →
      buildCandidate (pyStrip ctxDefault) rkvs =
        rkvs ++ [("Eintragender", .str (pyStrip ctxDefault))] ∧
      ∀ item, validateOrderItem env (buildCandidate (pyStrip ctxDefault) rkvs) = .ok item →
        item.eintragender = some (pyStrip ctxDefault)) ∧
    (dictGet rkvs "Eintragender" = some (.str "Ben") →
      buildCandidate (pyStrip ctxDefault) rkvs = rkvs ∧
      ∀ item, validateOrderItem env rkvs = .ok item →
        item.eintragender = some "Ben") := by
  constructor
  · intro habs
    have hbc : buildCandidate (pyStrip ctxDefault) rkvs =
        rkvs ++ [("Eintragender", .str (pyStrip ctxDefault))] := by
      unfold buildCandidate
      rw [habs, dictSet_absent habs]
      simp [jFalsy, hdE]
    refine ⟨hbc, ?_⟩
    intro item hv
    have hparts := validateOrderItem_parts hv
    have hei := hparts.2.2.2.2.2.1
    have hfv : fieldVal (buildCandidate (pyStrip ctxDefault) rkvs)
        "Eintragender" "eintragender" = some (.str (pyStrip ctxDefault)) := by
      unfold fieldVal
      rw [hbc, dictGet_append_absent habs]
    rw [hfv] at hei
    have hid : stripL (pyStrip ctxDefault).data = (pyStrip ctxDefault).data :=
      stripL_idem ctxDefault.data
    have hne : (stripL (pyStrip ctxDefault).data).isEmpty = false := by
      rw [hid]
      exact data_isEmpty_false_of_ne hdE
    have hval : vEintragender (some (.str (pyStrip ctxDefault))) =
        .ok (some (pyStrip ctxDefault)) := by
      simp [vEintragender, emptyToNone, hne]
    rw [hval] at hei
    simp only [Except.ok.injEq] at hei
    exact hei.symm
  · intro hben
    have hbc : buildCandidate (pyStrip ctxDefault) rkvs = rkvs := by
      unfold buildCandidate
      rw [hben]
      simp [jFalsy]
    refine ⟨hbc, ?_⟩
    intro item hv
    have hparts := validateOrderItem_parts hv
    have hei := hparts.2.2.2.2.2.1
    have hfv : fieldVal rkvs "Eintragender" "eintragender" = some (.str "Ben") := by
      unfold fieldVal
      rw [hben]
    rw [hfv] at hei
    have hval : vEintragender (some (.str "Ben")) = .ok (some "Ben") := rfl
    rw [hval] at hei
    simp only [Except.ok.injEq] at hei
    exact hei.symm

/-- Witness for C8: default "Anna" is injected into a row lacking
`Eintragender`; a row carrying "Ben" keeps it. -/
theorem claim_C8_witness :
    item8a.eintragender = some "Anna" ∧ item8b.eintragender = some "Ben" := by
  have h := claim_C8 env0 "Anna" (by decide) row8a
  have h2 := claim_C8 env0 "Anna" (by decide) row8b
  exact ⟨(h.1 rfl).2 item8a rfl, (h2.2 rfl).2 item8b rfl⟩

/-! ## Claim C6: date normalization -/

set_option maxRecDepth 8000 in
/-- Bulk kernel check of every `D.M.` string with day 1-31 and month 1-12,
with and without the trailing dot. -/
theorem checkDM_all :
    ((List.range' 1 31).all fun d => (List.range' 1 12).all fun m =>
      checkDM d m true && checkDM d m false) = true := by rfl

theorem daysInMonth_le (y m : Nat) : daysInMonth y m ≤ 31 := by
  unfold daysInMonth
  split_ifs <;> omega

theorem checkDM_true {d m : Nat} (t : Bool) (hd1 : 1 ≤ d) (hd2 : d ≤ 31)
    (hm1 : 1 ≤ m) (hm2 : m ≤ 12) : checkDM d m t = true := by
  have h1 := List.all_eq_true.mp checkDM_all d (List.mem_range'_1.mpr ⟨hd1, by omega⟩)
  have h2 := List.all_eq_true.mp h1 m (List.mem_range'_1.mpr ⟨hm1, by omega⟩)
  rw [Bool.and_eq_true] at h2
  cases t
  · exact h2.2
  · exact h2.1

theorem checkDM_parts {d m : Nat} {t : Bool} (h : checkDM d m t = true) :
    (dmChars d m t).isEmpty = false ∧ stripL (dmChars d m t) = dmChars d m t ∧
    zrepL (dmChars d m t) = dmChars d m t ∧
    dropSpacesL (dmChars d m t) = dmChars d m t ∧
    fromIsoL (dmChars d m t) = none ∧
    tryFormats datetimeFormats (dmChars d m t) = none ∧
    tryFormats dateFormats (dmChars d m t) = none ∧
    shortMatch (dmChars d m t) = some (d, m) := by
  unfold checkDM at h
  simp only [Bool.and_eq_true, Bool.not_eq_true', decide_eq_true_eq] at h
  obtain ⟨⟨⟨⟨⟨⟨⟨h1, h2⟩, h3⟩, h4⟩, h5⟩, h6⟩, h7⟩, h8⟩ := h
  exact ⟨h1, h2, h3, h4, h5, h6, h7, h8⟩

/-- C6: every string of shape `D.M.` (one- or two-digit day, dot, one- or
two-digit month, optional trailing dot) denoting a day that exists in the
current year maps to midnight of that day and month of the current year in
ISO-8601 form, and every string matching none of the accepted formats maps
to null (absent) rather than raising an error. -/
theorem claim_C6 :
    (∀ y d m t, 1 ≤ y → y ≤ 9999 → 1 ≤ m → m ≤ 12 → 1 ≤ d → d ≤ daysInMonth y m →
      normalizeDatumCore y (dmString d m t) = some (midnightIso y m d)) ∧
    (∀ y s, fromIsoL (zrepL (stripL s.data)) = none →
      tryFormats datetimeFormats (stripL s.data) = none →
      tryFormats dateFormats (stripL s.data) = none →
      shortMatch (dropSpacesL (stripL s.data)) = none →
      normalizeDatumCore y s = none) := by
  constructor
  · intro y d m t hy1 hy2 hm1 hm2 hd1 hd2
    have hd31 : d ≤ 31 := le_trans hd2 (daysInMonth_le y m)
    obtain ⟨hne, hstrip, hzrep, hdrop, hiso, hdtf, hdf, hshort⟩ :=
      checkDM_parts (checkDM_true t hd1 hd31 hm1 hm2)
    have hmk : mkDT y m d 0 0 0 none = some ⟨y, m, d, 0, 0, 0, none⟩ := by
      unfold mkDT
      rw [if_pos]
      unfold validDTb
      simp only [Bool.and_eq_true, decide_eq_true_eq]
      exact ⟨⟨⟨⟨⟨⟨⟨⟨⟨hy1, hy2⟩, hm1⟩, hm2⟩, hd1⟩, hd2⟩, by omega⟩, by omega⟩,
        by omega⟩, rfl⟩
    have hstep : normalizeDatumCore y (dmString d m t) =
        normalizeDatumL y (dmChars d m t) := rfl
    rw [hstep]
    unfold normalizeDatumL
    rw [hstrip, hne, hzrep, hiso, hdtf, hdf, hdrop, hshort]
    show (match mkDT y m d 0 0 0 none with
          | some dt => some (isoRender dt)
          | none => none) = some (midnightIso y m d)
    rw [hmk]
    rfl
  · intro y s h1 h2 h3 h4
    unfold normalizeDatumCore normalizeDatumL
    by_cases he : (stripL s.data).isEmpty = true
    · rw [he]
      rfl
    · rw [Bool.not_eq_true] at he
      rw [he, h1, h2, h3, h4]
      rfl

/-- Witness for C6: "24.12." in year 2025 maps to "2025-12-24T00:00:00";
"not a date" maps to null. -/
theorem claim_C6_witness :
    normalizeDatumCore 2025 (dmString 24 12 true) = some (midnightIso 2025 12 24) ∧
    dmString 24 12 true = "24.12." ∧
    midnightIso 2025 12 24 = "2025-12-24T00:00:00" ∧
    normalizeDatumCore 2025 "not a date" = none := by
  refine ⟨claim_C6.1 2025 24 12 true (by decide) (by decide) (by decide) (by decide)
      (by decide) (by decide), rfl, rfl,
    claim_C6.2 2025 "not a date" (by decide) (by decide) (by decide) (by decide)⟩

/-! ## Claim C5: image adapter degraded paths -/

theorem dictGet_template_eintragender (dE : String) :
    dictGet (templateOrder dE) "Eintragender" =
      some (if dE = "" then Json.null else .str dE) := rfl

/-- The dummy response for the template of the same default: the injection
and the `setdefault` loop leave the template row unchanged, and the
stringified row has the default itself in the `Eintragender` cell. -/
theorem buildDummy_spec (reqId dE w mv : String) :
    buildDummyResponse reqId dE w (default_output_schema dE) mv =
      ⟨reqId, "ok", order_field_names, [templateRowCells dE],
       [.obj (templateOrder dE)], [w], mv⟩ := by
  by_cases hdE : dE = ""
  · subst hdE
    rfl
  · have h1 : dictGet (templateOrder dE) "Eintragender" = some (.str dE) := by
      rw [dictGet_template_eintragender, if_neg hdE]
    have hcond : ((!(dE = "")) &&
        jFalsy ((dictGet (templateOrder dE) "Eintragender").getD .null)) = false := by
      rw [h1]
      simp [jFalsy, data_isEmpty_false_of_ne hdE]
    have hdo : defaultOrderFromTemplate (default_output_schema dE) = templateOrder dE := rfl
    have hdc : defaultColumnsFromTemplate (default_output_schema dE) = order_field_names := rfl
    have hsd : setDefaults (templateOrder dE) order_field_names = templateOrder dE := rfl
    have hrows : ordersToRows [.obj (templateOrder dE)] order_field_names =
        [templateRowCells dE] := by
      have hr0 : ordersToRows [.obj (templateOrder dE)] order_field_names =
          [[("Notiz/Kunde", ""), ("Abgeholt", "Nein"), ("Datum", ""), ("Menge", "1"),
            ("Produkt", ""),
            ("Eintragender", pyStringify (if dE = "" then Json.null else .str dE)),
            ("Wohin", "Wieblingen"), ("Zahlung", "Vor Ort")]] := rfl
      rw [hr0, if_neg hdE]
      rfl
    unfold buildDummyResponse
    simp only [hdo, hdc, hcond, Bool.false_eq_true, if_false, hsd, hrows]
    have hie : order_field_names.isEmpty = false := rfl
    simp only [hie, Bool.false_eq_true, if_false, hsd, hrows]

/-- C5: whenever the API credential is missing or the engine call raised
any exception, `extract_orders_from_image` returns (never raises) a
well-formed response with status "ok", exactly one template-derived order
row whose `Eintragender` is the caller-supplied default, and a non-empty
human-readable warning string in the warnings array. -/
theorem claim_C5 (apiKey dEraw reqId : String) (eng : Except String (Json × Trace))
    (h : pyStrip apiKey = "" ∨ ∃ e, eng = .error e) :
    extract_orders_from_image apiKey eng reqId dEraw =
      .ok ⟨reqId, "ok", order_field_names, [templateRowCells (pyStrip dEraw)],
           [.obj (templateOrder (pyStrip dEraw))], [warningText apiKey eng], "gpt-4o"⟩ ∧
    (warningText apiKey eng).data.isEmpty = false := by
  by_cases hk : pyStrip apiKey = ""
  · constructor
    · unfold extract_orders_from_image warningText
      rw [if_pos hk, if_pos hk, buildDummy_spec]
    · unfold warningText
      rw [if_pos hk]
      rfl
  · cases h with
    | inl h' => exact absurd h' hk
    | inr h' =>
      obtain ⟨e, he⟩ := h'
      subst he
      constructor
      · unfold extract_orders_from_image warningText
        rw [if_neg hk, if_neg hk]
        show Except.ok (buildDummyResponse reqId (pyStrip dEraw)
            ("OpenAI extraction failed (" ++ e ++ "), dummy response verwendet.")
            (default_output_schema (pyStrip dEraw)) "gpt-4o") =
          Except.ok ⟨reqId, "ok", order_field_names, [templateRowCells (pyStrip dEraw)],
            [.obj (templateOrder (pyStrip dEraw))],
            ["OpenAI extraction failed (" ++ e ++ "), dummy response verwendet."], "gpt-4o"⟩
        rw [buildDummy_spec]
      · unfold warningText
        rw [if_neg hk]
        show (("OpenAI extraction failed (" ++ e) ++
          "), dummy response verwendet.").data.isEmpty = false
        rw [String.data_append, String.data_append]
        rfl

/-- Witness for C5: missing credential with default "Anna". -/
theorem claim_C5_witness :
    extract_orders_from_image "" engW "r1" "Anna" =
      .ok ⟨"r1", "ok", order_field_names, [templateRowCells "Anna"],
           [.obj (templateOrder "Anna")],
           ["OPENAI_API_KEY fehlt, dummy response verwendet."], "gpt-4o"⟩ :=
  (claim_C5 "" "Anna" "r1" engW (Or.inl rfl)).1

/-! ## Claim C10: content-free responses -/

/-- C10: a response with neither a tool call carrying a non-blank arguments
string nor non-blank text content yields the literal candidate JSON of an
empty object, which validates as an `OrdersPayload` with an empty orders
list; such a response is a validation success on its attempt (zero orders,
`attempts = 1` at the first attempt), with no repair retry and no error. -/
theorem claim_C10 (env : Env) :
    (∀ r, toolCandidate r = none → textCandidate r = none →
      extractArguments r = "\x7b\x7d") ∧
    modelValidateOrders env "\x7b\x7d" = .ok (.obj [("orders", .arr [])]) ∧
    (∀ oracle sys user dE m,
      toolCandidate (oracle (initMsgs sys user)) = none →
      textCandidate (oracle (initMsgs sys user)) = none →
      extract_with_repair env oracle sys user dE m =
        (.ok (.obj [("orders", .arr [])])
          ⟨1, "\x7b\x7d", "orders_v1", "tool_call_repair", false, none, ⟨0, 0, 0⟩⟩,
         [initMsgs sys user])) := by
  refine ⟨?_, rfl, ?_⟩
  · intro r h1 h2
    unfold extractArguments
    rw [h1, h2]
  · intro oracle sys user dE m h1 h2
    have hraw : extractArguments (oracle (initMsgs sys user)) = "\x7b\x7d" := by
      unfold extractArguments
      rw [h1, h2]
    unfold extract_with_repair extractLoop
    rw [hraw]
    rfl

/-- Witness for C10: a response with no tool calls and `content = None`. -/
theorem claim_C10_witness :
    extract_with_repair env0 orcEmpty "s" (.str "u") "" 2 =
      (.ok (.obj [("orders", .arr [])])
        ⟨1, "\x7b\x7d", "orders_v1", "tool_call_repair", false, none, ⟨0, 0, 0⟩⟩,
       [initMsgs "s" (.str "u")]) :=
  (claim_C10 env0).2.2 orcEmpty "s" (.str "u") "" 2 rfl rfl

/-! ## Validity of parsed datetimes and shape of rendered ones (for C3) -/

theorem mkDT_valid {y mo d h mi s : Nat} {off : Option Int} {dt : DateTime}
    (hm : mkDT y mo d h mi s off = some dt) :
    validDTb dt.year dt.month dt.day dt.hour dt.minute dt.second dt.offset = true := by
  unfold mkDT at hm
  split_ifs at hm with hc
  cases hm
  exact hc

theorem fromIsoL_valid {l : List Char} {dt : DateTime} (h : fromIsoL l = some dt) :
    validDTb dt.year dt.month dt.day dt.hour dt.minute dt.second dt.offset = true := by
  unfold fromIsoL at h
  split at h
  · exact absurd h (by simp)
  · split at h
    · exact absurd h (by simp)
    · split at h
      · exact mkDT_valid h
      · split at h
        · exact absurd h (by simp)
        · exact mkDT_valid h

theorem strptimeFmt_valid {dirs : List Dir} {l : List Char} {dt : DateTime}
    (h : strptimeFmt dirs l = some dt) :
    validDTb dt.year dt.month dt.day dt.hour dt.minute dt.second dt.offset = true := by
  unfold strptimeFmt at h
  split at h
  · exact absurd h (by simp)
  · exact mkDT_valid h

theorem tryFormats_valid : ∀ (fs : List (List Dir)) (l : List Char) (dt : DateTime),
    tryFormats fs l = some dt →
    validDTb dt.year dt.month dt.day dt.hour dt.minute dt.second dt.offset = true := by
  intro fs
  induction fs with
  | nil => intro l dt h; exact absurd h (by simp [tryFormats])
  | cons f fs ih =>
    intro l dt h
    unfold tryFormats at h
    cases h1 : strptimeFmt f l with
    | some dt2 =>
      rw [h1] at h
      obtain rfl : dt2 = dt := by injection h
      exact strptimeFmt_valid h1
    | none =>
      rw [h1] at h
      exact ih l dt h

theorem dc_isDigit {k : Nat} (h : k ≤ 9) : (dc k).isDigit = true := by
  interval_cases k <;> rfl

theorem dv_dc {k : Nat} (h : k ≤ 9) : digitVal (dc k) = k := by
  interval_cases k <;> rfl

theorem offShape_renderOffset {off : Option Int} (h : offOkB off = true) :
    offShape (renderOffset off) = true := by
  cases off with
  | none => rfl
  | some o =>
    unfold offOkB at h
    rw [Bool.and_eq_true, decide_eq_true_eq, decide_eq_true_eq] at h
    obtain ⟨ho1, ho2⟩ := h
    have habs : o.natAbs ≤ 1439 := by omega
    unfold renderOffset pad2
    simp only [List.cons_append, List.nil_append]
    simp only [offShape, Bool.and_eq_true, decide_eq_true_eq]
    refine ⟨⟨⟨⟨⟨⟨?_, ?_⟩, ?_⟩, ?_⟩, ?_⟩, ?_⟩, ?_⟩
    · by_cases hneg : o < 0
      · simp [hneg]
      · simp [hneg]
    · exact dc_isDigit (by omega)
    · exact dc_isDigit (by omega)
    · exact dc_isDigit (by omega)
    · exact dc_isDigit (by omega)
    · rw [dv_dc (by omega), dv_dc (by omega)]
      omega
    · rw [dv_dc (by omega), dv_dc (by omega)]
      omega

theorem isoShape_of_components {y mo d hh mi s : Nat} {rest : List Char}
    (hy1 : 1 ≤ y) (hy2 : y ≤ 9999) (hm1 : 1 ≤ mo) (hm2 : mo ≤ 12) (hd1 : 1 ≤ d)
    (hd2 : d ≤ daysInMonth y mo) (hh2 : hh ≤ 23) (hmi2 : mi ≤ 59) (hs2 : s ≤ 59)
    (hrest : offShape rest = true) :
    isoShape (pad4 y ++ '-' :: pad2 mo ++ '-' :: pad2 d ++ 'T' :: pad2 hh ++
      ':' :: pad2 mi ++ ':' :: pad2 s ++ rest) = true := by
  have hd31 : d ≤ 31 := le_trans hd2 (daysInMonth_le y mo)
  unfold pad4 pad2
  simp only [List.cons_append, List.nil_append]
  simp only [isoShape, Bool.and_eq_true, decide_eq_true_eq]
  refine ⟨⟨?_, ?_⟩, hrest⟩
  · apply List.all_eq_true.mpr
    intro c hc
    fin_cases hc <;> exact dc_isDigit (by omega)
  · rw [dv_dc (show y / 1000 % 10 ≤ 9 by omega), dv_dc (show y / 100 % 10 ≤ 9 by omega),
      dv_dc (show y / 10 % 10 ≤ 9 by omega), dv_dc (show y % 10 ≤ 9 by omega),
      dv_dc (show mo / 10 % 10 ≤ 9 by omega), dv_dc (show mo % 10 ≤ 9 by omega),
      dv_dc (show d / 10 % 10 ≤ 9 by omega), dv_dc (show d % 10 ≤ 9 by omega),
      dv_dc (show hh / 10 % 10 ≤ 9 by omega), dv_dc (show hh % 10 ≤ 9 by omega),
      dv_dc (show mi / 10 % 10 ≤ 9 by omega), dv_dc (show mi % 10 ≤ 9 by omega),
      dv_dc (show s / 10 % 10 ≤ 9 by omega), dv_dc (show s % 10 ≤ 9 by omega)]
    have hyv : 1000 * (y / 1000 % 10) + 100 * (y / 100 % 10) + 10 * (y / 10 % 10) +
        y % 10 = y := by omega
    have hmov : 10 * (mo / 10 % 10) + mo % 10 = mo := by omega
    have hdv : 10 * (d / 10 % 10) + d % 10 = d := by omega
    rw [hyv, hmov, hdv]
    exact ⟨⟨⟨⟨⟨⟨⟨hy1, hm1⟩, hm2⟩, hd1⟩, hd2⟩, by omega⟩, by omega⟩, by omega⟩

theorem isoRender_shape {dt : DateTime}
    (h : validDTb dt.year dt.month dt.day dt.hour dt.minute dt.second dt.offset = true) :
    isIso8601 (isoRender dt) = true := by
  obtain ⟨y, mo, d, hh, mi, s, off⟩ := dt
  unfold validDTb at h
  simp only [Bool.and_eq_true, decide_eq_true_eq] at h
  obtain ⟨⟨⟨⟨⟨⟨⟨⟨⟨hy1, hy2⟩, hm1⟩, hm2⟩, hd1⟩, hd2⟩, hh23⟩, hmi59⟩, hs59⟩, hoff⟩ := h
  show isoShape (isoRenderL ⟨y, mo, d, hh, mi, s, off⟩) = true
  unfold isoRenderL
  exact isoShape_of_components hy1 hy2 hm1 hm2 hd1 hd2 hh23 hmi59 hs59
    (offShape_renderOffset hoff)

theorem normalizeDatumL_iso {ty : Nat} {l : List Char} {t : String}
    (h : normalizeDatumL ty l = some t) : isIso8601 t = true := by
  unfold normalizeDatumL at h
  split_ifs at h with he
  cases h1 : fromIsoL (zrepL (stripL l)) with
  | some dt =>
    rw [h1] at h
    obtain rfl : isoRender dt = t := by injection h
    exact isoRender_shape (fromIsoL_valid h1)
  | none =>
  rw [h1] at h
  cases h2 : tryFormats datetimeFormats (stripL l) with
  | some dt =>
    rw [h2] at h
    obtain rfl : isoRender dt = t := by injection h
    exact isoRender_shape (tryFormats_valid _ _ _ h2)
  | none =>
  rw [h2] at h
  cases h3 : tryFormats dateFormats (stripL l) with
  | some dt =>
    rw [h3] at h
    obtain rfl : isoRender dt = t := by injection h
    exact isoRender_shape (tryFormats_valid _ _ _ h3)
  | none =>
  rw [h3] at h
  cases h4 : shortMatch (dropSpacesL (stripL l)) with
  | none => rw [h4] at h; exact absurd h (by simp)
  | some p =>
    rw [h4] at h
    obtain ⟨d, m⟩ := p
    dsimp only at h
    cases h5 : mkDT ty m d 0 0 0 none with
    | none => rw [h5] at h; exact absurd h (by simp)
    | some dt =>
      rw [h5] at h
      obtain rfl : isoRender dt = t := by injection h
      exact isoRender_shape (mkDT_valid h5)

/-! ## Field-level inversion lemmas and the item invariant (C3) -/

theorem vAbgeholt_ok {v : Option Json} {a : String} (h : vAbgeholt v = .ok a) :
    a = "Ja" ∨ a = "Nein" := by
  unfold vAbgeholt at h
  split at h
  · right
    injection h with h2
    exact h2.symm
  · split_ifs at h with hs
    injection h with h2
    subst h2
    rw [Bool.or_eq_true, decide_eq_true_eq, decide_eq_true_eq] at hs
    exact hs
  · exact absurd h (by simp)

theorem vMenge_ok {v : Option Json} {n : Int} (h : vMenge v = .ok n) : 1 ≤ n := by
  unfold vMenge at h
  split at h
  · exact absurd h (by simp)
  · split_ifs at h with h1
    injection h with h2
    rw [← h2]
    exact h1
  · split at h
    · split_ifs at h with h1
      injection h with h2
      rw [← h2]
      exact h1
    · exact absurd h (by simp)
  · exact absurd h (by simp)

theorem vProdukt_ok {al : List String} {v : Option Json} {p : String}
    (h : vProdukt al v = .ok p) :
    pyStrip p = p ∧ p ≠ "" ∧ (al ≠ [] → p ∈ al) := by
  unfold vProdukt at h
  split at h
  · exact absurd h (by simp)
  case _ s =>
    dsimp only at h
    split_ifs at h with h1 h2
    injection h with h3
    subst h3
    refine ⟨pyStrip_idem s, h1, ?_⟩
    intro hal
    by_contra hnm
    apply h2
    rw [Bool.and_eq_true]
    constructor
    · rw [Bool.not_eq_true']
      cases al with
      | nil => exact absurd rfl hal
      | cons x xs => rfl
    · rw [Bool.not_eq_true']
      cases hc : al.contains (pyStrip s) with
      | false => rfl
      | true => exact absurd (List.mem_of_elem_eq_true hc) hnm
  · exact absurd h (by simp)

theorem vZahlung_ok {v : Option Json} {z : Option String} (h : vZahlung v = .ok z) :
    z = none ∨ ∃ s, z = some s ∧ s ∈ zahlungEnum := by
  unfold vZahlung at h
  split at h
  · right
    refine ⟨"Vor Ort", ?_, by decide⟩
    injection h with h2
    exact h2.symm
  · split at h
    · left
      injection h with h2
      exact h2.symm
    · split_ifs at h with hc
      right
      injection h with h2
      exact ⟨_, h2.symm, List.mem_of_elem_eq_true hc⟩
    · exact absurd h (by simp)

theorem vDatum_ok {ty : Nat} {v : Option Json} {dopt : Option String}
    (h : vDatum ty v = .ok dopt) :
    dopt = none ∨ ∃ ds, dopt = some ds ∧ isIso8601 ds = true := by
  unfold vDatum at h
  split at h
  · left
    injection h with h2
    exact h2.symm
  · split at h
    · left
      injection h with h2
      exact h2.symm
    case _ s =>
      injection h with h2
      cases hnc : normalizeDatumCore ty s with
      | none => left; rw [← h2, hnc]
      | some ds =>
        right
        refine ⟨ds, by rw [← h2, hnc], ?_⟩
        exact normalizeDatumL_iso (show normalizeDatumL ty s.data = some ds from hnc)
    · exact absurd h (by simp)

theorem validateOrderItem_inv {env : Env} {row : List (String × Json)}
    {item : OrderItem} (h : validateOrderItem env row = .ok item) :
    ItemInv env item := by
  obtain ⟨hnk, hab, hda, hmg, hpr, hei, hwo, hza⟩ := validateOrderItem_parts h
  obtain ⟨hps, hpne, hmem⟩ := vProdukt_ok hpr
  exact ⟨vAbgeholt_ok hab, vMenge_ok hmg, hps, hpne, hmem, vZahlung_ok hza,
    vDatum_ok hda⟩

/-! ## Revalidation of dumped items (second pass never raises) -/

theorem vNotizKunde_dump (nk : Option String) :
    ∃ r, vNotizKunde (some (optStr nk)) = .ok r := by
  cases nk with
  | none => exact ⟨none, rfl⟩
  | some s =>
    by_cases hse : (stripL s.data).isEmpty = true
    · exact ⟨none, by simp [vNotizKunde, optStr, emptyToNone, hse]⟩
    · rw [Bool.not_eq_true] at hse
      exact ⟨some s, by simp [vNotizKunde, optStr, emptyToNone, hse]⟩

theorem vEintragender_dump (ei : Option String) :
    ∃ r, vEintragender (some (optStr ei)) = .ok r := by
  cases ei with
  | none => exact ⟨none, rfl⟩
  | some s =>
    by_cases hse : (stripL s.data).isEmpty = true
    · exact ⟨none, by simp [vEintragender, optStr, emptyToNone, hse]⟩
    · rw [Bool.not_eq_true] at hse
      exact ⟨some s, by simp [vEintragender, optStr, emptyToNone, hse]⟩

theorem vDatum_dump (ty : Nat) (da : Option String) :
    ∃ r, vDatum ty (some (optStr da)) = .ok r := by
  cases da with
  | none => exact ⟨none, rfl⟩
  | some ds => exact ⟨normalizeDatumCore ty ds, rfl⟩

theorem vWohin_dump (wo : Option String) :
    ∃ r, vWohin (some (optStr wo)) = .ok r := by
  cases wo with
  | none => exact ⟨none, rfl⟩
  | some s => exact ⟨some s, rfl⟩

theorem vProdukt_dump {al : List String} {p : String} (hps : pyStrip p = p)
    (hpne : p ≠ "") (hmem : al ≠ [] → p ∈ al) :
    vProdukt al (some (.str p)) = .ok p := by
  unfold vProdukt
  dsimp only
  rw [hps, if_neg hpne]
  cases al with
  | nil => rfl
  | cons x xs =>
    have hc : (x :: xs).contains p = true :=
      List.elem_eq_true_of_mem (hmem (by simp))
    rw [hc]
    rfl

theorem vZahlung_dump {za : Option String}
    (hza : za = none ∨ ∃ s, za = some s ∧ s ∈ zahlungEnum) :
    ∃ r, vZahlung (some (optStr za)) = .ok r := by
  rcases hza with rfl | ⟨s, rfl, hs⟩
  · exact ⟨none, rfl⟩
  · fin_cases hs
    · exact ⟨some "Vor Ort", rfl⟩
    · exact ⟨some "Online", rfl⟩
    · exact ⟨some "Per Rechnung", rfl⟩
    · exact ⟨some "Schon bezahlt", rfl⟩
    · exact ⟨some "Unklar", rfl⟩

theorem revalidate_ok {env : Env} {it : OrderItem} (hinv : ItemInv env it) :
    ∃ it2, validateOrderItem env (dumpRow it) = .ok it2 := by
  obtain ⟨hab, hmg, hps, hpne, hmem, hza, hda⟩ := hinv
  obtain ⟨nk2, h1⟩ := vNotizKunde_dump it.notiz_kunde
  have h2 : vAbgeholt (some (.str it.abgeholt)) = .ok it.abgeholt := by
    rcases hab with hj | hn
    · rw [hj]; rfl
    · rw [hn]; rfl
  obtain ⟨da2, h3⟩ := vDatum_dump env.todayYear it.datum
  have h4 : vMenge (some (.num it.menge)) = .ok it.menge := by
    unfold vMenge
    dsimp only
    rw [if_pos hmg]
  have h5 : vProdukt env.allowed (some (.str it.produkt)) = .ok it.produkt :=
    vProdukt_dump hps hpne hmem
  obtain ⟨ei2, h6⟩ := vEintragender_dump it.eintragender
  obtain ⟨wo2, h7⟩ := vWohin_dump it.wohin
  obtain ⟨za2, h8⟩ := vZahlung_dump hza
  have f1 : fieldVal (dumpRow it) "Notiz/Kunde" "notiz_kunde" =
      some (optStr it.notiz_kunde) := rfl
  have f2 : fieldVal (dumpRow it) "Abgeholt" "abgeholt" =
      some (.str it.abgeholt) := rfl
  have f3 : fieldVal (dumpRow it) "Datum" "datum" = some (optStr it.datum) := rfl
  have f4 : fieldVal (dumpRow it) "Menge" "menge" = some (.num it.menge) := rfl
  have f5 : fieldVal (dumpRow it) "Produkt" "produkt" = some (.str it.produkt) := rfl
  have f6 : fieldVal (dumpRow it) "Eintragender" "eintragender" =
      some (optStr it.eintragender) := rfl
  have f7 : fieldVal (dumpRow it) "Wohin" "wohin" = some (optStr it.wohin) := rfl
  have f8 : fieldVal (dumpRow it) "Zahlung" "zahlung" = some (optStr it.zahlung) := rfl
  refine ⟨⟨nk2, it.abgeholt, da2, it.menge, it.produkt, ei2, wo2, za2⟩, ?_⟩
  unfold validateOrderItem
  simp only [bind, Except.bind, f1, h1, f2, h2, f3, h3, f4, h4, f5, h5, f6, h6,
    f7, h7, f8, h8, pure, Except.pure]

/-! ## mapE lemmas -/

theorem mapE_ok_of_all {f : α → Except String β} {l : List α}
    (h : ∀ a ∈ l, ∃ b, f a = .ok b) : ∃ bs, mapE f l = .ok bs := by
  induction l with
  | nil => exact ⟨[], rfl⟩
  | cons a rest ih =>
    obtain ⟨b, hb⟩ := h a (by simp)
    obtain ⟨bs, hbs⟩ := ih (fun x hx => h x (by simp [hx]))
    refine ⟨b :: bs, ?_⟩
    unfold mapE
    rw [hb, hbs]

theorem mapE_mem {f : α → Except String β} : ∀ {l : List α} {bs : List β},
    mapE f l = .ok bs → ∀ b ∈ bs, ∃ a ∈ l, f a = .ok b := by
  intro l
  induction l with
  | nil =>
    intro bs h b hb
    unfold mapE at h
    injection h with h2
    subst h2
    simp at hb
  | cons a rest ih =>
    intro bs h b hb
    unfold mapE at h
    cases hf : f a with
    | error e => rw [hf] at h; exact absurd h (by simp)
    | ok c =>
      rw [hf] at h
      cases hr : mapE f rest with
      | error e => rw [hr] at h; exact absurd h (by simp)
      | ok cs =>
        rw [hr] at h
        injection h with h2
        subst h2
        rcases List.mem_cons.mp hb with rfl | hmem
        · exact ⟨a, by simp, hf⟩
        · obtain ⟨a2, ha2, hfa2⟩ := ih hr b hmem
          exact ⟨a2, by simp [ha2], hfa2⟩

/-! ## Shape of validated payloads and claim C3 -/

theorem jOrdersList_obj (xs : List Json) :
    jOrdersList (.obj [("orders", .arr xs)]) = xs := rfl

theorem validate_orders_payload_shape {env : Env} {dE : String} {payload out : Json}
    (h : validate_orders_payload env dE payload = .ok out) :
    ∀ r ∈ jOrdersList out, ∃ item, ItemInv env item ∧ r = dumpOrderItem item := by
  cases payload with
  | obj kvs =>
    unfold validate_orders_payload at h
    dsimp only at h
    cases hit : iterRows ((dictGet kvs "orders").getD (.arr [])) with
    | error e => rw [hit] at h; exact absurd h (by simp)
    | ok rows =>
      rw [hit] at h
      dsimp only at h
      cases hmap : mapE (secondPassItem env) (rows.filterMap (firstPassRow env dE)) with
      | error e => rw [hmap] at h; exact absurd h (by simp)
      | ok items =>
        rw [hmap] at h
        injection h with h2
        subst h2
        intro r hr
        rw [jOrdersList_obj] at hr
        obtain ⟨it2, hit2, hre⟩ := List.mem_map.mp hr
        obtain ⟨a, ha, hfa⟩ := mapE_mem hmap it2 hit2
        have hinv : ItemInv env it2 := by
          unfold secondPassItem at hfa
          split at hfa
          · exact validateOrderItem_inv hfa
          · exact absurd hfa (by simp)
        exact ⟨it2, hinv, hre.symm⟩
  | null =>
    unfold validate_orders_payload at h
    dsimp only at h
    injection h with h2
    subst h2
    intro r hr
    rw [jOrdersList_obj] at hr
    simp at hr
  | bool b =>
    unfold validate_orders_payload at h
    dsimp only at h
    injection h with h2
    subst h2
    intro r hr
    rw [jOrdersList_obj] at hr
    simp at hr
  | num n =>
    unfold validate_orders_payload at h
    dsimp only at h
    injection h with h2
    subst h2
    intro r hr
    rw [jOrdersList_obj] at hr
    simp at hr
  | str s =>
    unfold validate_orders_payload at h
    dsimp only at h
    injection h with h2
    subst h2
    intro r hr
    rw [jOrdersList_obj] at hr
    simp at hr
  | arr xs =>
    unfold validate_orders_payload at h
    dsimp only at h
    injection h with h2
    subst h2
    intro r hr
    rw [jOrdersList_obj] at hr
    simp at hr

theorem jGet_dump_menge (it : OrderItem) :
    jGet (dumpOrderItem it) "Menge" = some (.num it.menge) := rfl

theorem jGet_dump_abgeholt (it : OrderItem) :
    jGet (dumpOrderItem it) "Abgeholt" = some (.str it.abgeholt) := rfl

theorem jGet_dump_produkt (it : OrderItem) :
    jGet (dumpOrderItem it) "Produkt" = some (.str it.produkt) := rfl

theorem jGet_dump_datum (it : OrderItem) :
    jGet (dumpOrderItem it) "Datum" = some (optStr it.datum) := rfl

theorem dump_RowInv {env : Env} {it : OrderItem} (hinv : ItemInv env it) :
    RowInv env (dumpOrderItem it) := by
  obtain ⟨hab, hmg, hps, hpne, hmem, hza, hda⟩ := hinv
  refine ⟨⟨it.menge, jGet_dump_menge it, hmg⟩, ?_,
    ⟨it.produkt, jGet_dump_produkt it, hps, hpne, hmem⟩, ?_⟩
  · rcases hab with hj | hn
    · left; rw [jGet_dump_abgeholt, hj]
    · right; rw [jGet_dump_abgeholt, hn]
  · rcases hda with hn | ⟨ds, hds, hiso⟩
    · left; rw [jGet_dump_datum, hn]; rfl
    · right; exact ⟨ds, by rw [jGet_dump_datum, hds]; rfl, hiso⟩

theorem normalizeOrders_ok_payload {env : Env} {dE : String} {parsed norm : Json}
    {rep : NormReport} (hn : normalizeOrders env dE parsed = .ok (norm, rep)) :
    validate_orders_payload env (pyStrip dE) parsed = .ok norm := by
  unfold normalizeOrders validate_orders_payload_with_report at hn
  cases hvp : validate_orders_payload env (pyStrip dE) parsed with
  | error e => rw [hvp] at hn; exact absurd hn (by simp)
  | ok normalized =>
    rw [hvp] at hn
    dsimp only at hn
    injection hn with h2
    injection h2 with h3 h4
    rw [h3]

theorem extractLoop_ok_payload (env : Env) (oracle : List Message → LLMResponse)
    (dE : String) :
    ∀ (r : Nat) (msgs : List Message) (a : Nat) (p : Json) (t : Trace),
      (extractLoop env oracle dE r msgs a).1 = .ok p t →
      ∃ q, validate_orders_payload env (pyStrip dE) q = .ok p := by
  intro r
  induction r with
  | zero =>
    intro msgs a p t h
    unfold extractLoop at h
    dsimp only at h
    cases hv : modelValidateOrders env (extractArguments (oracle msgs)) with
    | ok parsed =>
      rw [hv] at h
      dsimp only at h
      cases hn : normalizeOrders env dE parsed with
      | ok nr =>
        obtain ⟨norm, rep⟩ := nr
        rw [hn] at h
        dsimp only at h
        injection h with hp ht
        subst hp
        exact ⟨parsed, normalizeOrders_ok_payload hn⟩
      | error e =>
        rw [hn] at h
        exact absurd h (by simp)
    | error err =>
      rw [hv] at h
      dsimp only at h
      unfold fallbackStep at h
      cases hn : normalizeOrders env dE
          (fallbackParse (extractArguments (oracle msgs))) with
      | error e => rw [hn] at h; exact absurd h (by simp)
      | ok nr =>
        obtain ⟨norm, rep⟩ := nr
        rw [hn] at h
        dsimp only at h
        split_ifs at h with hsc
        injection h with hp ht
        subst hp
        exact ⟨_, normalizeOrders_ok_payload hn⟩
  | succ r ih =>
    intro msgs a p t h
    unfold extractLoop at h
    dsimp only at h
    cases hv : modelValidateOrders env (extractArguments (oracle msgs)) with
    | ok parsed =>
      rw [hv] at h
      dsimp only at h
      cases hn : normalizeOrders env dE parsed with
      | ok nr =>
        obtain ⟨norm, rep⟩ := nr
        rw [hn] at h
        dsimp only at h
        injection h with hp ht
        subst hp
        exact ⟨parsed, normalizeOrders_ok_payload hn⟩
      | error e =>
        rw [hn] at h
        exact absurd h (by simp)
    | error err =>
      rw [hv] at h
      dsimp only at h
      exact ih (msgs ++ [repairMessage (extractArguments (oracle msgs)) err]) (a + 1) p t h

/-- C3: every order item in the output of `validate_orders_payload` — and
hence in every payload returned by `extract_with_repair`, on the success
path and the fallback path alike — has quantity (`Menge`) at least 1,
`Abgeholt` equal to `Ja` or `Nein`, a non-empty trimmed product that
belongs to the allowed product set whenever that set is non-empty, and a
date (`Datum`) that is either absent or a valid ISO-8601 string; an item
violating the constraints is dropped rather than failing the batch (the
output contains only items that validated). -/
theorem claim_C3 (env : Env) :
    (∀ dE payload out, validate_orders_payload env dE payload = .ok out →
      ∀ r ∈ jOrdersList out, RowInv env r) ∧
    (∀ oracle sys user dE m p tr calls,
      extract_with_repair env oracle sys user dE m = (.ok p tr, calls) →
      ∀ r ∈ jOrdersList p, RowInv env r) := by
  have hmain : ∀ dE payload out, validate_orders_payload env dE payload = .ok out →
      ∀ r ∈ jOrdersList out, RowInv env r := by
    intro dE payload out h r hr
    obtain ⟨it, hinv, rfl⟩ := validate_orders_payload_shape h r hr
    exact dump_RowInv hinv
  refine ⟨hmain, ?_⟩
  intro oracle sys user dE m p tr calls h r hr
  have h1 : (extractLoop env oracle dE m (initMsgs sys user) 0).1 = .ok p tr := by
    unfold extract_with_repair at h
    rw [h]
  obtain ⟨q, hq⟩ := extractLoop_ok_payload env oracle dE m (initMsgs sys user) 0 p tr h1
  exact hmain (pyStrip dE) q p hq r hr

/-- Witness for C3: a validated payload row and an engine fallback-path
row both satisfy the invariant. -/
theorem claim_C3_witness :
    RowInv env0 (dumpOrderItem onePayloadItem) ∧
    RowInv env0 (dumpOrderItem itemRustico3) :=
  ⟨(claim_C3 env0).1 "" onePayload
      (.obj [("orders", .arr [dumpOrderItem onePayloadItem])]) rfl
      (dumpOrderItem onePayloadItem) (by simp [jOrdersList_obj]),
   (claim_C3 env0).2 orcMixed "s" (.str "u") "" 0
      (.obj [("orders", .arr [dumpOrderItem itemRustico3])])
      ⟨1, mixedArgs, "orders_v1", "tool_call_repair", true, some menge1Err, ⟨2, 1, 1⟩⟩
      [initMsgs "s" (.str "u")] rfl
      (dumpOrderItem itemRustico3) (by simp [jOrdersList_obj])⟩

/-! ## The repair loop: attempt counting, call log, and fallback (C1, C2) -/

theorem except_error_of_not_isOk {x : Except String Json} (h : x.isOk = false) :
    ∃ e, x = .error e := by
  cases x with
  | error e => exact ⟨e, rfl⟩
  | ok v => exact Bool.noConfusion h

theorem msgsSeq_succ (env : Env) (oracle : List Message → LLMResponse)
    (init : List Message) (n : Nat) :
    msgsSeq env oracle init (n + 1) =
      msgsStep env oracle (msgsSeq env oracle init n) := rfl

theorem msgsSeq_shift (env : Env) (oracle : List Message → LLMResponse)
    (init : List Message) :
    ∀ k, msgsSeq env oracle (msgsSeq env oracle init 1) k =
      msgsSeq env oracle init (k + 1)
  | 0 => rfl
  | k + 1 => by
    calc msgsSeq env oracle (msgsSeq env oracle init 1) (k + 1)
        = msgsStep env oracle (msgsSeq env oracle (msgsSeq env oracle init 1) k) := rfl
      _ = msgsStep env oracle (msgsSeq env oracle init (k + 1)) := by
          rw [msgsSeq_shift env oracle init k]
      _ = msgsSeq env oracle init (k + 1 + 1) := rfl

theorem rawAt_shift (env : Env) (oracle : List Message → LLMResponse)
    (init : List Message) (k : Nat) :
    rawAt env oracle (msgsSeq env oracle init 1) k = rawAt env oracle init (k + 1) := by
  unfold rawAt
  rw [msgsSeq_shift]

theorem validAt_shift (env : Env) (oracle : List Message → LLMResponse)
    (init : List Message) (k : Nat) :
    validAt env oracle (msgsSeq env oracle init 1) k =
      validAt env oracle init (k + 1) := by
  unfold validAt
  rw [rawAt_shift]

theorem errAt_shift (env : Env) (oracle : List Message → LLMResponse)
    (init : List Message) (k : Nat) :
    errAt env oracle (msgsSeq env oracle init 1) k = errAt env oracle init (k + 1) := by
  unfold errAt
  rw [validAt_shift]

theorem callLog_shift (env : Env) (oracle : List Message → LLMResponse)
    (msgs : List Message) (n : Nat) :
    msgs :: (List.range (n + 1)).map
      (msgsSeq env oracle (msgsSeq env oracle msgs 1)) =
      (List.range (n + 1 + 1)).map (msgsSeq env oracle msgs) := by
  have h2 : List.map (msgsSeq env oracle (msgsSeq env oracle msgs 1))
      (List.range (n + 1)) =
      List.map (fun x => msgsSeq env oracle msgs (x + 1)) (List.range (n + 1)) :=
    List.map_congr_left (fun x _ => msgsSeq_shift env oracle msgs x)
  conv_rhs => rw [List.range_succ_eq_map, List.map_cons, List.map_map]
  rw [h2]
  rfl

theorem modelValidateOrders_shape {env : Env} {raw : String} {parsed : Json}
    (h : modelValidateOrders env raw = .ok parsed) :
    ∃ xs, parsed = .obj [("orders", .arr xs)] := by
  unfold modelValidateOrders at h
  cases hp : jsonParse raw with
  | none => rw [hp] at h; exact absurd h (by simp)
  | some j =>
    rw [hp] at h
    cases j with
    | obj kvs =>
      dsimp only at h
      cases ho : (dictGet kvs "orders").getD (.arr []) with
      | arr xs =>
        rw [ho] at h
        dsimp only at h
        cases hm : mapE (strictItem env) xs with
        | error e => rw [hm] at h; exact absurd h (by simp)
        | ok items =>
          rw [hm] at h
          injection h with h2
          exact ⟨items.map dumpOrderItem, h2.symm⟩
      | null => rw [ho] at h; exact absurd h (by simp)
      | bool b => rw [ho] at h; exact absurd h (by simp)
      | num n => rw [ho] at h; exact absurd h (by simp)
      | str s => rw [ho] at h; exact absurd h (by simp)
      | obj kvs2 => rw [ho] at h; exact absurd h (by simp)
    | null => exact absurd h (by simp)
    | bool b => exact absurd h (by simp)
    | num n => exact absurd h (by simp)
    | str s => exact absurd h (by simp)
    | arr xs => exact absurd h (by simp)

theorem secondPass_ok (env : Env) (dE : String) (rows : List Json) :
    ∃ items2, mapE (secondPassItem env)
      (rows.filterMap (firstPassRow env dE)) = .ok items2 := by
  apply mapE_ok_of_all
  intro a ha
  obtain ⟨row, hrow, hfp⟩ := List.mem_filterMap.mp ha
  cases row with
  | obj rkvs =>
    unfold firstPassRow at hfp
    dsimp only at hfp
    cases hvi : validateOrderItem env (buildCandidate dE rkvs) with
    | error e => rw [hvi] at hfp; exact absurd hfp (by simp)
    | ok item =>
      rw [hvi] at hfp
      dsimp only at hfp
      injection hfp with h2
      subst h2
      obtain ⟨it2, hit2⟩ := revalidate_ok (validateOrderItem_inv hvi)
      exact ⟨it2, hit2⟩
  | null => unfold firstPassRow at hfp; exact absurd hfp (by simp)
  | bool b => unfold firstPassRow at hfp; exact absurd hfp (by simp)
  | num n => unfold firstPassRow at hfp; exact absurd hfp (by simp)
  | str s => unfold firstPassRow at hfp; exact absurd hfp (by simp)
  | arr xs => unfold firstPassRow at hfp; exact absurd hfp (by simp)

theorem validate_orders_payload_ok (env : Env) (dE : String)
    (kvs : List (String × Json)) (rows : List Json)
    (hit : iterRows ((dictGet kvs "orders").getD (.arr [])) = .ok rows) :
    ∃ out, validate_orders_payload env dE (.obj kvs) = .ok out := by
  unfold validate_orders_payload
  dsimp only
  rw [hit]
  dsimp only
  obtain ⟨items2, hm⟩ := secondPass_ok env dE rows
  rw [hm]
  exact ⟨_, rfl⟩

theorem normalizeOrders_ok_validated {env : Env} (dE : String) {raw : String}
    {parsed : Json} (h : modelValidateOrders env raw = .ok parsed) :
    ∃ nr, normalizeOrders env dE parsed = .ok nr := by
  obtain ⟨xs, rfl⟩ := modelValidateOrders_shape h
  obtain ⟨out, hout⟩ := validate_orders_payload_ok env (pyStrip dE)
    [("orders", .arr xs)] xs rfl
  unfold normalizeOrders validate_orders_payload_with_report
  dsimp only
  rw [hout]
  exact ⟨_, rfl⟩

theorem extractLoop_success (env : Env) (oracle : List Message → LLMResponse)
    (dE : String) :
    ∀ (n r a : Nat) (msgs : List Message) (parsed : Json),
      n ≤ r →
      (∀ k, k < n → (validAt env oracle msgs k).isOk = false) →
      validAt env oracle msgs n = .ok parsed →
      ∃ norm rep, normalizeOrders env dE parsed = .ok (norm, rep) ∧
        extractLoop env oracle dE r msgs a =
          (.ok norm ⟨a + n + 1, rawAt env oracle msgs n, "orders_v1",
            "tool_call_repair", false, none, rep⟩,
           (List.range (n + 1)).map (msgsSeq env oracle msgs)) := by
  intro n
  induction n with
  | zero =>
    intro r a msgs parsed hnr hfail hok
    have hv : modelValidateOrders env (extractArguments (oracle msgs)) = .ok parsed := hok
    obtain ⟨nr, hn⟩ := normalizeOrders_ok_validated dE hv
    obtain ⟨norm, rep⟩ := nr
    refine ⟨norm, rep, hn, ?_⟩
    unfold extractLoop
    dsimp only
    rw [hv]
    dsimp only
    rw [hn]
    dsimp only
    rfl
  | succ n ih =>
    intro r a msgs parsed hnr hfail hok
    obtain ⟨e0, he0⟩ := except_error_of_not_isOk (hfail 0 (Nat.succ_pos n))
    have hv0 : modelValidateOrders env (extractArguments (oracle msgs)) = .error e0 := he0
    obtain ⟨r2, rfl⟩ : ∃ r2, r = r2 + 1 := ⟨r - 1, by omega⟩
    have hms1 : msgsSeq env oracle msgs 1 =
        msgs ++ [repairMessage (extractArguments (oracle msgs)) e0] := by
      rw [msgsSeq_succ]
      show msgsStep env oracle msgs = _
      unfold msgsStep
      dsimp only
      rw [hv0]
    have hfail2 : ∀ k, k < n →
        (validAt env oracle (msgsSeq env oracle msgs 1) k).isOk = false := by
      intro k hk
      rw [validAt_shift]
      exact hfail (k + 1) (by omega)
    have hok2 : validAt env oracle (msgsSeq env oracle msgs 1) n = .ok parsed := by
      rw [validAt_shift]
      exact hok
    obtain ⟨norm, rep, hn, hrun⟩ := ih r2 (a + 1) (msgsSeq env oracle msgs 1) parsed
      (by omega) hfail2 hok2
    refine ⟨norm, rep, hn, ?_⟩
    unfold extractLoop
    dsimp only
    rw [hv0]
    dsimp only
    rw [← hms1, hrun]
    dsimp only
    rw [rawAt_shift]
    have hatt : a + 1 + n + 1 = a + (n + 1) + 1 := by omega
    rw [hatt, callLog_shift]

theorem extractLoop_calls_le (env : Env) (oracle : List Message → LLMResponse)
    (dE : String) :
    ∀ (r : Nat) (msgs : List Message) (a : Nat),
      (extractLoop env oracle dE r msgs a).2.length ≤ r + 1 := by
  intro r
  induction r with
  | zero =>
    intro msgs a
    unfold extractLoop
    dsimp only
    cases hv : modelValidateOrders env (extractArguments (oracle msgs)) with
    | ok parsed =>
      dsimp only
      cases hn : normalizeOrders env dE parsed with
      | ok nr =>
        obtain ⟨norm, rep⟩ := nr
        simp
      | error e => simp
    | error err => simp
  | succ r ih =>
    intro msgs a
    unfold extractLoop
    dsimp only
    cases hv : modelValidateOrders env (extractArguments (oracle msgs)) with
    | ok parsed =>
      dsimp only
      cases hn : normalizeOrders env dE parsed with
      | ok nr =>
        obtain ⟨norm, rep⟩ := nr
        simp
      | error e => simp
    | error err =>
      dsimp only
      have h2 := ih (msgs ++ [repairMessage (extractArguments (oracle msgs)) err]) (a + 1)
      simp only [List.length_cons]
      omega

theorem extractLoop_allfail (env : Env) (oracle : List Message → LLMResponse)
    (dE : String) :
    ∀ (r : Nat) (msgs : List Message) (a : Nat),
      (∀ k, k ≤ r → (validAt env oracle msgs k).isOk = false) →
      extractLoop env oracle dE r msgs a =
        (fallbackStep env dE (rawAt env oracle msgs r) (errAt env oracle msgs r)
          (a + r + 1),
         (List.range (r + 1)).map (msgsSeq env oracle msgs)) := by
  intro r
  induction r with
  | zero =>
    intro msgs a hfail
    obtain ⟨e, he⟩ := except_error_of_not_isOk (hfail 0 (Nat.le_refl 0))
    have he2 : modelValidateOrders env (extractArguments (oracle msgs)) = .error e := he
    have herr : errAt env oracle msgs 0 = e := by
      unfold errAt
      rw [he]
    unfold extractLoop
    dsimp only
    rw [he2, herr]
    dsimp only
    rfl
  | succ r ih =>
    intro msgs a hfail
    obtain ⟨e0, he0⟩ := except_error_of_not_isOk (hfail 0 (Nat.zero_le _))
    have he2 : modelValidateOrders env (extractArguments (oracle msgs)) = .error e0 := he0
    have hms1 : msgsSeq env oracle msgs 1 =
        msgs ++ [repairMessage (extractArguments (oracle msgs)) e0] := by
      rw [msgsSeq_succ]
      show msgsStep env oracle msgs = _
      unfold msgsStep
      dsimp only
      rw [he2]
    have hfail2 : ∀ k, k ≤ r →
        (validAt env oracle (msgsSeq env oracle msgs 1) k).isOk = false := by
      intro k hk
      rw [validAt_shift]
      exact hfail (k + 1) (by omega)
    have hrun := ih (msgsSeq env oracle msgs 1) (a + 1) hfail2
    unfold extractLoop
    dsimp only
    rw [he2]
    dsimp only
    rw [← hms1, hrun]
    dsimp only
    rw [rawAt_shift, errAt_shift]
    have hatt : a + 1 + r + 1 = a + (r + 1) + 1 := by omega
    rw [hatt, callLog_shift]

/-- C1: with retry bound `m` the engine makes at most `m + 1` strictly
sequential LLM calls; if attempt `n` (zero-based) is the first whose
response validates against the target schema, the call returns the
normalized payload with a trace whose `attempts` field is `n + 1` and a
call log containing exactly the `n + 1` message lists of attempts
`0..n` (so no further LLM call is made); and when attempt `n < m` fails
validation, the conversation for attempt `n + 1` is the previous one
extended with a repair message built from the invalid JSON and the
validation error. -/
theorem claim_C1 (env : Env) (oracle : List Message → LLMResponse)
    (sys : String) (user : Json) (dE : String) (m : Nat) :
    (extract_with_repair env oracle sys user dE m).2.length ≤ m + 1 ∧
    (∀ n parsed, n ≤ m →
      (∀ k, k < n → (validAt env oracle (initMsgs sys user) k).isOk = false) →
      validAt env oracle (initMsgs sys user) n = .ok parsed →
      ∃ norm rep, normalizeOrders env dE parsed = .ok (norm, rep) ∧
        extract_with_repair env oracle sys user dE m =
          (.ok norm ⟨n + 1, rawAt env oracle (initMsgs sys user) n, "orders_v1",
            "tool_call_repair", false, none, rep⟩,
           (List.range (n + 1)).map (msgsSeq env oracle (initMsgs sys user)))) ∧
    (∀ n, n < m → (validAt env oracle (initMsgs sys user) n).isOk = false →
      msgsSeq env oracle (initMsgs sys user) (n + 1) =
        msgsSeq env oracle (initMsgs sys user) n ++
          [repairMessage (rawAt env oracle (initMsgs sys user) n)
            (errAt env oracle (initMsgs sys user) n)]) := by
  refine ⟨extractLoop_calls_le env oracle dE m (initMsgs sys user) 0, ?_, ?_⟩
  · intro n parsed hnm hfail hok
    obtain ⟨norm, rep, hn, hrun⟩ := extractLoop_success env oracle dE n m 0
      (initMsgs sys user) parsed hnm hfail hok
    refine ⟨norm, rep, hn, ?_⟩
    rw [Nat.zero_add] at hrun
    exact hrun
  · intro n hnm hfail
    obtain ⟨e, he⟩ := except_error_of_not_isOk hfail
    have he2 : modelValidateOrders env
        (extractArguments (oracle (msgsSeq env oracle (initMsgs sys user) n))) =
        .error e := he
    have herr : errAt env oracle (initMsgs sys user) n = e := by
      unfold errAt
      rw [he]
    rw [msgsSeq_succ]
    unfold msgsStep
    dsimp only
    rw [he2, herr]
    dsimp only
    rfl

/-- Witness for C1: an oracle that fails schema validation on attempt 0
and corrects itself on attempt 1 yields a success with `attempts = 2`
and a call log of exactly two message lists. -/
theorem claim_C1_witness :
    extract_with_repair env0 orcRepair "s" (.str "u") "" 2 =
      (.ok (.obj [("orders", .arr [dumpOrderItem itemClassico2])])
        ⟨2, goodArgs, "orders_v1", "tool_call_repair", false, none, ⟨1, 1, 0⟩⟩,
       (List.range 2).map (msgsSeq env0 orcRepair (initMsgs "s" (.str "u")))) := by
  obtain ⟨norm, rep, hn, hrun⟩ := (claim_C1 env0 orcRepair "s" (.str "u") "" 2).2.1 1
    (.obj [("orders", .arr [dumpOrderItem itemClassico2])])
    (by omega) (fun k hk => by interval_cases k; rfl) rfl
  have hc : normalizeOrders env0 ""
      (.obj [("orders", .arr [dumpOrderItem itemClassico2])]) =
      .ok ((.obj [("orders", .arr [dumpOrderItem itemClassico2])]), ⟨1, 1, 0⟩) := rfl
  rw [hn] at hc
  injection hc with h2
  injection h2 with h3 h4
  subst h3
  subst h4
  exact hrun

/-- C2 counterexample: the claim promises that exhausted retries end either
in a flagged fallback success or in a `StructuredExtractionError`; but when
the salvaged JSON object carries a non-iterable `orders` value (here the
number 5), the normalization step raises a `TypeError` that propagates to
the caller instead. -/
theorem claim_C2_cex :
    (extract_with_repair env0 orcInt "s" (.str "u") "" 0).1 =
      .pyError "TypeError: object is not iterable" := rfl

/-- C2 (amended): if schema validation fails on all `m + 1` attempts, the
engine parses the final raw output with the salvage parser (first element
of a non-empty top-level array, empty object on parse failure or
non-object) and runs the target normalization on it; if normalization
succeeds and the result contains a non-empty list value, it is returned
as a success whose trace has `fallback_used = true` and the last
validation error attached; if normalization succeeds but nothing
salvageable remains, a `StructuredExtractionError` carrying the last
validation error as cause is raised — provided normalization itself does
not raise (a non-iterable `orders` value in the salvaged object makes it
raise a `TypeError`, which propagates instead). -/
theorem claim_C2 (env : Env) (oracle : List Message → LLMResponse)
    (sys : String) (user : Json) (dE : String) (m : Nat)
    (hall : ∀ k, k ≤ m → (validAt env oracle (initMsgs sys user) k).isOk = false) :
    (∀ norm rep,
      normalizeOrders env dE
          (fallbackParse (rawAt env oracle (initMsgs sys user) m)) =
        .ok (norm, rep) →
      (hasStructuredContent norm = true →
        (extract_with_repair env oracle sys user dE m).1 =
          .ok norm ⟨m + 1, rawAt env oracle (initMsgs sys user) m, "orders_v1",
            "tool_call_repair", true,
            some (errAt env oracle (initMsgs sys user) m), rep⟩) ∧
      (hasStructuredContent norm = false →
        (extract_with_repair env oracle sys user dE m).1 =
          .extractionError (failMsg (m + 1))
            (some (errAt env oracle (initMsgs sys user) m)))) ∧
    (∀ e,
      normalizeOrders env dE
          (fallbackParse (rawAt env oracle (initMsgs sys user) m)) = .error e →
      (extract_with_repair env oracle sys user dE m).1 = .pyError e) := by
  have hrun := extractLoop_allfail env oracle dE m (initMsgs sys user) 0 hall
  have h1 : (extract_with_repair env oracle sys user dE m).1 =
      fallbackStep env dE (rawAt env oracle (initMsgs sys user) m)
        (errAt env oracle (initMsgs sys user) m) (m + 1) := by
    show (extractLoop env oracle dE m (initMsgs sys user) 0).1 = _
    rw [hrun]
    dsimp only
    rw [Nat.zero_add]
  constructor
  · intro norm rep hn
    constructor
    · intro hsc
      rw [h1]
      unfold fallbackStep
      rw [hn]
      dsimp only
      rw [if_pos hsc]
    · intro hsc
      rw [h1]
      unfold fallbackStep
      rw [hn]
      dsimp only
      have hneg : ¬ (hasStructuredContent norm = true) := by
        rw [hsc]
        exact Bool.false_ne_true
      rw [if_neg hneg]
  · intro e hn
    rw [h1]
    unfold fallbackStep
    rw [hn]

/-- Witness for C2: an oracle that always returns an array-wrapped payload
with one valid and one invalid order fails strict validation, and the
fallback path salvages exactly the valid order with `fallback_used = true`,
the last validation error attached, and one dropped order. -/
theorem claim_C2_witness :
    (extract_with_repair env0 orcMixed "s" (.str "u") "" 0).1 =
      .ok (.obj [("orders", .arr [dumpOrderItem itemRustico3])])
        ⟨1, mixedArgs, "orders_v1", "tool_call_repair", true, some menge1Err,
         ⟨2, 1, 1⟩⟩ := by
  have h := (claim_C2 env0 orcMixed "s" (.str "u") "" 0
      (fun k hk => by interval_cases k; rfl)).1
    (.obj [("orders", .arr [dumpOrderItem itemRustico3])]) ⟨2, 1, 1⟩ rfl
  exact h.1 rfl

end NW
